import Mathlib

set_option maxHeartbeats 1000000
set_option maxRecDepth 8192

/- Shallow embedding of the lashes-bot reservation engine (src/bot.py).
   The two SQLite tables become lists of rows, each DB helper of bot.py
   becomes a pure Lean function on that state, and the aiogram handlers
   relevant to the verified properties become transition functions on the
   per-user conversation session.  All recursion is structural, so every
   definition evaluates by kernel reduction on concrete inputs. -/

/- Named string constants: service names from the CONFIG section of bot.py
   and the concrete strings used in the example states further down. -/

def SERV_LAMI : String := "Ламінування"

def sEmpty : String := ""

def dA : String := "2026-01-05"

def tA : String := "09:30"

def tB : String := "11:30"

def nameA : String := "Іваненко Марія"

def nameAB : String := "a b"

def phoneA : String := "+380991234567"

def phone16 : String := "1234567890123456"

def userNameA : String := "maria"

def tsA : String := "2026-01-01T00:00:00"

/-- digits_count from bot.py, line 74: len(re.sub(r"\D", "", s or "")) — the
number of digit characters of s (the regex class is modelled over ASCII
digits, which covers every phone string the bot receives). -/
def digits_count (s : String) : Nat :=
  (s.data.filter Char.isDigit).length

/-- Python str.strip(): drop leading and trailing whitespace. -/
def pyStrip (s : String) : String :=
  ⟨((s.data.dropWhile Char.isWhitespace).reverse.dropWhile Char.isWhitespace).reverse⟩

/-- Helper for pySplit: accumulate the current token (reversed) while walking
the character list, emitting a token at each whitespace run. -/
def splitWsAux : List Char → List Char → List (List Char)
  | [], acc => if acc.isEmpty then [] else [acc.reverse]
  | c :: cs, acc =>
    if c.isWhitespace then
      if acc.isEmpty then splitWsAux cs [] else acc.reverse :: splitWsAux cs []
    else
      splitWsAux cs (c :: acc)

/-- Python str.split() with no separator, as used by u_fullname (bot.py line
1038): the whitespace-delimited tokens of s, empty tokens dropped. -/
def pySplit (s : String) : List (List Char) :=
  splitWsAux s.data []

/-- Shape of the regex \d{4}-\d{2}-\d{2} used by norm_date (bot.py line 80). -/
def isDateShape : List Char → Bool
  | [y1, y2, y3, y4, s1, m1, m2, s2, d1, d2] =>
    y1.isDigit && y2.isDigit && y3.isDigit && y4.isDigit && s1 == '-' &&
      m1.isDigit && m2.isDigit && s2 == '-' && d1.isDigit && d2.isDigit
  | _ => false

/-- norm_date from bot.py, lines 78-83: strip, then require YYYY-MM-DD. -/
def norm_date (s : String) : Option String :=
  let s2 := pyStrip s
  if isDateShape s2.data then some s2 else none

/-- Shape of the regex ([01]\d|2[0-3]):[0-5]\d used by norm_time (bot.py
line 104-108). -/
def isTimeShape : List Char → Bool
  | [h1, h2, c, m1, m2] =>
    (((h1 == '0' || h1 == '1') && h2.isDigit) ||
      (h1 == '2' && h2.isDigit && decide (h2 ≤ '3'))) &&
      c == ':' && m1.isDigit && decide (m1 ≤ '5') && m2.isDigit
  | _ => false

/-- norm_time from bot.py, lines 104-108. -/
def norm_time (s : String) : Option String :=
  let s2 := pyStrip s
  if isTimeShape s2.data then some s2 else none

/- ================== data model (tables of ensure_schema) ================== -/

/-- One row of the slots table: key (d, t) under a unique index, plus the
is_open flag (an SQLite integer; 1 = open).  The AUTOINCREMENT id column of
the slots table is never read by any query of bot.py and is omitted. -/
structure Slot where
  d : String
  t : String
  is_open : Nat
deriving DecidableEq

/-- One row of the bookings table (ensure_schema, bot.py lines 221-241). -/
structure Booking where
  id : Nat
  user_id : Int
  username : String
  client_name : String
  phone : String
  service : String
  ext_type : Option String
  d : String
  t : String
  status : String
  created_at : String
  reminded_day : Nat
  reminded_hour : Nat
deriving DecidableEq

/-- The persistent database: both tables plus the AUTOINCREMENT counter of
the bookings table. -/
structure Db where
  slots : List Slot
  bookings : List Booking
  next_id : Nat
deriving DecidableEq

/-- SELECT ... FROM slots WHERE d=? AND t=? (first matching row). -/
def slotsLookup : List Slot → String → String → Option Slot
  | [], _, _ => none
  | s :: ss, d, t => if s.d = d ∧ s.t = t then some s else slotsLookup ss d t

/-- UPDATE slots SET is_open=? WHERE d=? AND t=?. -/
def setSlotOpen : List Slot → String → String → Nat → List Slot
  | [], _, _, _ => []
  | s :: ss, d, t, v =>
    (if s.d = d ∧ s.t = t then { s with is_open := v } else s) :: setSlotOpen ss d t v

/-- SELECT ... FROM bookings WHERE id=? (first matching row). -/
def bookingLookup : List Booking → Nat → Option Booking
  | [], _ => none
  | b :: bs, bid => if b.id = bid then some b else bookingLookup bs bid

/-- UPDATE bookings SET status=canceled WHERE id=?. -/
def cancelById : List Booking → Nat → List Booking
  | [], _ => []
  | b :: bs, bid =>
    (if b.id = bid then { b with status := "canceled" } else b) :: cancelById bs bid

/-- UPDATE bookings SET d=?, t=?, reminded_day=0, reminded_hour=0 WHERE id=?. -/
def repointById : List Booking → Nat → String → String → List Booking
  | [], _, _, _ => []
  | b :: bs, bid, nd, nt =>
    (if b.id = bid then { b with d := nd, t := nt, reminded_day := 0, reminded_hour := 0 }
     else b) :: repointById bs bid nd nt

/-- The number of rows of the bookings table with status active and key
(d, t) — the active appointments referencing a slot key. -/
def activeCount : List Booking → String → String → Nat
  | [], _, _ => 0
  | b :: bs, d, t =>
    (if b.status = "active" ∧ b.d = d ∧ b.t = t then 1 else 0) + activeCount bs d t

/-- Lexicographic comparison of two character lists by code point — the
ordering SQLite ORDER BY uses on the ASCII time strings HH:MM. -/
def charListLe : List Char → List Char → Bool
  | [], _ => true
  | _ :: _, [] => false
  | a :: as, b :: bs => if a = b then charListLe as bs else decide (a < b)

def insertSorted (x : String) : List String → List String
  | [] => [x]
  | y :: ys => if charListLe x.data y.data then x :: y :: ys else y :: insertSorted x ys

def sortTimes : List String → List String
  | [] => []
  | x :: xs => insertSorted x (sortTimes xs)

def openTimesRaw : List Slot → String → List String
  | [], _ => []
  | s :: ss, d =>
    if s.d = d ∧ s.is_open = 1 then s.t :: openTimesRaw ss d else openTimesRaw ss d

/-- get_open_times from bot.py, lines 278-282:
SELECT t FROM slots WHERE d=? AND is_open=1 ORDER BY t. -/
def get_open_times (db : Db) (d : String) : List String :=
  sortTimes (openTimesRaw db.slots d)

/- ================== reservation operations ================== -/

/-- The column values book_slot inserts into bookings (bot.py lines 294-297):
status active, both reminder flags 0. -/
def mkBooking (nid : Nat) (user_id : Int) (username client_name phone service : String)
    (ext_type : Option String) (d t created_at : String) : Booking :=
  { id := nid, user_id := user_id, username := username, client_name := client_name,
    phone := phone, service := service, ext_type := ext_type, d := d, t := t,
    status := "active", created_at := created_at, reminded_day := 0, reminded_hour := 0 }

/-- The non-key arguments of one book_slot call. -/
structure BookReq where
  user_id : Int
  username : String
  client_name : String
  phone : String
  service : String
  ext_type : Option String
  d : String
  t : String
  created_at : String
deriving DecidableEq

/-- The SELECT phase of book_slot (bot.py lines 288-291): read is_open for
(d, t); a missing row or a value other than 1 fails the check. -/
def book_check (db : Db) (d t : String) : Bool :=
  match slotsLookup db.slots d t with
  | none => false
  | some s => decide (s.is_open = 1)

/-- The write phase of book_slot (bot.py lines 293-298): close the slot,
insert the appointment row, commit. -/
def book_write (db : Db) (r : BookReq) : Db :=
  { slots := setSlotOpen db.slots r.d r.t 0,
    bookings := db.bookings ++
      [mkBooking db.next_id r.user_id r.username r.client_name r.phone r.service
        r.ext_type r.d r.t r.created_at],
    next_id := db.next_id + 1 }

/-- book_slot from bot.py, lines 285-299, as one sequential call: check the
slot is open, and if so close it and insert the booking.  Returns the updated
database and the boolean result of the Python function. -/
def book_slot (db : Db) (user_id : Int) (username client_name phone service : String)
    (ext_type : Option String) (d t created_at : String) : Db × Bool :=
  if book_check db d t then
    (book_write db
      { user_id := user_id, username := username, client_name := client_name,
        phone := phone, service := service, ext_type := ext_type, d := d, t := t,
        created_at := created_at }, true)
  else
    (db, false)

/-- cancel_booking from bot.py, lines 353-366.  Result mirrors the Python
tuple (ok, d, t). -/
def cancel_booking (db : Db) (booking_id : Nat) : Db × Bool × String × String :=
  match bookingLookup db.bookings booking_id with
  | none => (db, false, sEmpty, sEmpty)
  | some row =>
    if row.status = "canceled" then (db, true, row.d, row.t)
    else
      ({ db with
          bookings := cancelById db.bookings booking_id,
          slots := setSlotOpen db.slots row.d row.t 1 },
        true, row.d, row.t)

/-- move_booking from bot.py, lines 369-392: require the booking active and
the target slot open, then reopen the old slot, close the new one and repoint
the booking with both reminder flags reset, in one commit. -/
def move_booking (db : Db) (booking_id : Nat) (new_d new_t : String) : Db × Bool :=
  match bookingLookup db.bookings booking_id with
  | none => (db, false)
  | some row =>
    if row.status ≠ "active" then (db, false)
    else
      match slotsLookup db.slots new_d new_t with
      | none => (db, false)
      | some s2 =>
        if s2.is_open ≠ 1 then (db, false)
        else
          ({ db with
              slots := setSlotOpen (setSlotOpen db.slots row.d row.t 1) new_d new_t 0,
              bookings := repointById db.bookings booking_id new_d new_t },
            true)

/-- add_slot from bot.py, lines 268-275: INSERT a slot with is_open=1; the
unique index on (d, t) turns a duplicate key into an IntegrityError, reported
as false. -/
def add_slot (db : Db) (d t : String) : Db × Bool :=
  match slotsLookup db.slots d t with
  | some _ => (db, false)
  | none => ({ db with slots := db.slots ++ [{ d := d, t := t, is_open := 1 }] }, true)

/-- bulk_add_default_slots from bot.py, lines 246-265.  The argument keys is
the (date, time) template the Python loop generates from today — working days
Tue-Sat over the given number of weeks times DEFAULT_TIMES; the calendar
arithmetic producing it is external glue, while the per-key insert-or-skip
behaviour (and the added/skipped counters) is modelled exactly. -/
def bulk_add_default_slots (db : Db) : List (String × String) → Db × Nat × Nat
  | [] => (db, 0, 0)
  | k :: rest =>
    match add_slot db k.1 k.2 with
    | (db1, true) =>
      let r := bulk_add_default_slots db1 rest
      (r.1, r.2.1 + 1, r.2.2)
    | (db1, false) =>
      let r := bulk_add_default_slots db1 rest
      (r.1, r.2.1, r.2.2 + 1)

/-- delete_slots_all from bot.py, lines 395-398: DELETE FROM slots. -/
def delete_slots_all (db : Db) : Db :=
  { db with slots := [] }

/-- delete_bookings_all from bot.py, lines 401-404: DELETE FROM bookings. -/
def delete_bookings_all (db : Db) : Db :=
  { db with bookings := [] }

/-- delete_everything from bot.py, lines 407-411: DELETE both tables. -/
def delete_everything (db : Db) : Db :=
  { db with slots := [], bookings := [] }

/- ================== interleaving model of concurrent book_slot ========== -/

/- Each book_slot call runs on its own aiosqlite connection and awaits each
statement: the SELECT of the check phase runs (and its implicit read
transaction ends) before the UPDATE/INSERT/COMMIT write transaction starts,
and the asyncio event loop may run other coroutines between the two phases.
A call is therefore two atomic steps against the shared database: the check,
then (when the check passed) the write. -/

inductive BookPhase
  | toCheck
  | toWrite (passed : Bool)
  | finished (res : Bool)
deriving DecidableEq

structure BookTask where
  req : BookReq
  phase : BookPhase
deriving DecidableEq

/-- One atomic step of an in-flight book_slot call. -/
def bookTaskStep (db : Db) (c : BookTask) : Db × BookTask :=
  match c.phase with
  | BookPhase.toCheck =>
    (db, { c with phase := BookPhase.toWrite (book_check db c.req.d c.req.t) })
  | BookPhase.toWrite passed =>
    if passed then (book_write db c.req, { c with phase := BookPhase.finished true })
    else (db, { c with phase := BookPhase.finished false })
  | BookPhase.finished _ => (db, c)

/-- Run two concurrent book_slot calls under a schedule: true steps the first
call, false the second. -/
def runTwo (db : Db) (a b : BookTask) : List Bool → Db × BookTask × BookTask
  | [] => (db, a, b)
  | pick :: rest =>
    if pick then
      let r := bookTaskStep db a
      runTwo r.1 r.2 b rest
    else
      let r := bookTaskStep db b
      runTwo r.1 a r.2 rest

/- ================== conversation state machine ================== -/

/-- The aiogram FSM states of class UserBooking (bot.py lines 558-565); idle
stands for a cleared FSMContext. -/
inductive FsmState
  | idle
  | service
  | ext_type
  | day
  | time
  | fullname
  | phone
  | confirm
deriving DecidableEq

/-- The per-user session data dict collected across the flow. -/
structure Session where
  service : Option String
  ext_type : Option String
  day : Option String
  time : Option String
  client_name : Option String
  phone : Option String
deriving DecidableEq

def Session.empty : Session :=
  { service := none, ext_type := none, day := none, time := none,
    client_name := none, phone := none }

/-- Python truthiness of a fetched data value: absent or empty is falsy. -/
def truthy : Option String → Bool
  | none => false
  | some s => !s.isEmpty

/-- u_fullname from bot.py, lines 1035-1043: strip, then reject when fewer
than 2 whitespace tokens or fewer than 5 characters (re-prompting in the same
state); otherwise store client_name and advance to the phone state. -/
def u_fullname (sess : Session) (text : String) : FsmState × Session :=
  let fullname := pyStrip text
  if (pySplit fullname).length < 2 ∨ fullname.length < 5 then
    (FsmState.fullname, sess)
  else
    (FsmState.phone, { sess with client_name := some fullname })

/-- u_phone from bot.py, lines 1046-1077: strip, reject when digits_count is
below 9 (re-prompting in the same state); otherwise store the phone and — if
the collected data survived — show the summary and advance to confirm, else
clear the session. -/
def u_phone (sess : Session) (text : String) : FsmState × Session :=
  let phone := pyStrip text
  if digits_count phone < 9 then
    (FsmState.phone, sess)
  else
    let sess1 := { sess with phone := some phone }
    if !(truthy sess1.service) || !(truthy sess1.day) || !(truthy sess1.time) ||
        !(truthy sess1.client_name) then
      (FsmState.idle, Session.empty)
    else
      (FsmState.confirm, sess1)

inductive ConfirmAction
  | yes
  | no
deriving DecidableEq

/-- u_confirm from bot.py, lines 1080-1141: no clears the session; yes with
lost data clears the session; otherwise call book_slot — on failure stay with
the same data but move to the day state (a fresh calendar is shown), on
success clear the session. -/
def u_confirm (db : Db) (caller_id : Int) (caller_username : String)
    (created_at : String) (sess : Session) (action : ConfirmAction) :
    Db × FsmState × Session :=
  match action with
  | ConfirmAction.no => (db, FsmState.idle, Session.empty)
  | ConfirmAction.yes =>
    if !(truthy sess.service) || !(truthy sess.day) || !(truthy sess.time) ||
        !(truthy sess.client_name) || !(truthy sess.phone) then
      (db, FsmState.idle, Session.empty)
    else
      let r := book_slot db caller_id caller_username (sess.client_name.getD sEmpty)
        (sess.phone.getD sEmpty) (sess.service.getD sEmpty) sess.ext_type
        (sess.day.getD sEmpty) (sess.time.getD sEmpty) created_at
      if r.2 then (r.1, FsmState.idle, Session.empty)
      else (r.1, FsmState.day, sess)

/-- User-visible outcome classes of the u_cancel_yes / u_move_yes handlers. -/
inductive ClientActionResult
  | notFoundOrInactive
  | notYours
  | badData
  | actionFailed
  | actionDone
deriving DecidableEq

/-- u_cancel_yes from bot.py, lines 767-798: refuse when the booking is
missing or inactive, refuse when it belongs to another user, else cancel. -/
def u_cancel_yes (db : Db) (caller_id : Int) (booking_id : Nat) :
    Db × ClientActionResult :=
  match bookingLookup db.bookings booking_id with
  | none => (db, ClientActionResult.notFoundOrInactive)
  | some bk =>
    if bk.status ≠ "active" then (db, ClientActionResult.notFoundOrInactive)
    else if bk.user_id ≠ caller_id then (db, ClientActionResult.notYours)
    else
      let r := cancel_booking db booking_id
      if r.2.1 then (r.1, ClientActionResult.actionDone)
      else (r.1, ClientActionResult.actionFailed)

/-- u_move_yes from bot.py, lines 891-941 (after the callback-data split):
refuse when the booking is missing or inactive, refuse when it belongs to
another user, refuse malformed date or time, else move. -/
def u_move_yes (db : Db) (caller_id : Int) (booking_id : Nat)
    (new_d new_t : String) : Db × ClientActionResult :=
  match bookingLookup db.bookings booking_id with
  | none => (db, ClientActionResult.notFoundOrInactive)
  | some bk =>
    if bk.status ≠ "active" then (db, ClientActionResult.notFoundOrInactive)
    else if bk.user_id ≠ caller_id then (db, ClientActionResult.notYours)
    else if (norm_date new_d).isNone ∨ (norm_time new_t).isNone then
      (db, ClientActionResult.badData)
    else
      let r := move_booking db booking_id new_d new_t
      if r.2 then (r.1, ClientActionResult.actionDone)
      else (r.1, ClientActionResult.actionFailed)

/- ================== reminder worker ================== -/

def DAY_WINDOW_MIN : Int := 10

def HOUR_WINDOW_MIN : Int := 10

/-- What one sweep of reminder_worker observes: the wall clock (in whole
minutes of the bot timezone) and whether each bot.send_message delivery
attempt for this row would succeed.  A raised delivery exception is caught by
the worker and leaves the flag unset (bot.py lines 637-641, 651-655). -/
structure SweepEnv where
  nowMin : Int
  dayDelivers : Bool
  hourDelivers : Bool
deriving DecidableEq

/-- The day-reminder block of reminder_worker (bot.py lines 629-641) for one
row: attempt a send only when the flag is unfired and delta is inside the
day window; set the flag only when the delivery succeeded. -/
def dayPass (env : SweepEnv) (delta : Int) (b : Booking) : Booking × Bool :=
  if b.reminded_day = 0 ∧ (24 * 60 - DAY_WINDOW_MIN) ≤ delta ∧
      delta ≤ (24 * 60 + DAY_WINDOW_MIN) then
    if env.dayDelivers then ({ b with reminded_day := 1 }, true) else (b, false)
  else (b, false)

/-- The hour-reminder block of reminder_worker (bot.py lines 643-655). -/
def hourPass (env : SweepEnv) (delta : Int) (b : Booking) : Booking × Bool :=
  if b.reminded_hour = 0 ∧ (60 - HOUR_WINDOW_MIN) ≤ delta ∧
      delta ≤ (60 + HOUR_WINDOW_MIN) then
    if env.hourDelivers then ({ b with reminded_hour := 1 }, true) else (b, false)
  else (b, false)

/-- One reminder_worker pass over a single bookings row (bot.py lines
604-655).  tmin interprets a (d, t) key as an instant in whole minutes, the
role appt_dt_local plays (none models a parse failure); the worker only
selects rows with status active, skips rows with a falsy user_id, skips rows
more than 5 minutes in the past, then runs the day block and the hour block.
Returns the updated row and whether each reminder was delivered. -/
def sweepRow (tmin : String → String → Option Int) (env : SweepEnv) (b : Booking) :
    Booking × Bool × Bool :=
  if b.status ≠ "active" then (b, false, false)
  else if b.user_id = 0 then (b, false, false)
  else
    match tmin b.d b.t with
    | none => (b, false, false)
    | some appt =>
      let delta := appt - env.nowMin
      if delta < -5 then (b, false, false)
      else
        let r1 := dayPass env delta b
        let r2 := hourPass env delta r1.1
        (r2.1, r1.2, r2.2)

/-- A sequence of sweeps over one row: the final row plus the total number of
delivered day reminders and hour reminders. -/
def runSweeps (tmin : String → String → Option Int) (b : Booking) :
    List SweepEnv → Booking × Nat × Nat
  | [] => (b, 0, 0)
  | env :: rest =>
    let s := sweepRow tmin env b
    let r := runSweeps tmin s.1 rest
    (r.1, (if s.2.1 then 1 else 0) + r.2.1, (if s.2.2 then 1 else 0) + r.2.2)

/- ================== invariants ================== -/

/-- The invariant the specification states for the stores: a slot row is open
exactly when no active appointment references its key. -/
def slotInvariant (db : Db) : Prop :=
  ∀ s ∈ db.slots, (s.is_open = 1 ↔ activeCount db.bookings s.d s.t = 0)

/-- At most one active appointment per (d, t) key. -/
def atMostOneActive (db : Db) : Prop :=
  ∀ b ∈ db.bookings, b.status = "active" → activeCount db.bookings b.d b.t ≤ 1

/-- Every active appointment references an existing slot row. -/
def noDangling (db : Db) : Prop :=
  ∀ b ∈ db.bookings, b.status = "active" → (slotsLookup db.slots b.d b.t).isSome = true

/-- The reservation invariant of the store, in the inductive strength the
operations actually maintain. -/
def DbInv (db : Db) : Prop :=
  slotInvariant db ∧ atMostOneActive db ∧ noDangling db

/-- Table well-formedness guaranteed by the schema: booking ids are below the
AUTOINCREMENT counter and pairwise distinct, slot keys are pairwise distinct
(the unique index), and a booking status is active or canceled. -/
def DbWF (db : Db) : Prop :=
  (∀ b ∈ db.bookings, b.id < db.next_id) ∧
  List.Pairwise (fun (x y : Booking) => x.id ≠ y.id) db.bookings ∧
  List.Pairwise (fun (x y : Slot) => ¬(x.d = y.d ∧ x.t = y.t)) db.slots ∧
  (∀ b ∈ db.bookings, b.status = "active" ∨ b.status = "canceled")

instance (db : Db) : Decidable (slotInvariant db) := by
  unfold slotInvariant; infer_instance

instance (db : Db) : Decidable (atMostOneActive db) := by
  unfold atMostOneActive; infer_instance

instance (db : Db) : Decidable (noDangling db) := by
  unfold noDangling; infer_instance

instance (db : Db) : Decidable (DbInv db) := by
  unfold DbInv; infer_instance

instance (db : Db) : Decidable (DbWF db) := by
  unfold DbWF; infer_instance

/- ================== concrete example states ================== -/

/-- A booking row used by the example states: user 7, active on (dA, tA). -/
def bk1 : Booking :=
  { id := 1, user_id := 7, username := userNameA, client_name := nameA,
    phone := phoneA, service := SERV_LAMI, ext_type := none, d := dA, t := tA,
    status := "active", created_at := tsA, reminded_day := 0, reminded_hour := 0 }

/-- One closed slot at (dA, tA) held by the active booking bk1. -/
def dbBooked : Db :=
  { slots := [{ d := dA, t := tA, is_open := 0 }], bookings := [bk1], next_id := 2 }

/-- One open slot at (dA, tA) and no bookings. -/
def dbOpen : Db :=
  { slots := [{ d := dA, t := tA, is_open := 1 }], bookings := [], next_id := 1 }

/-- Slot (dA, tA) closed and slot (dA, tB) still open; no bookings. -/
def dbTaken : Db :=
  { slots := [{ d := dA, t := tA, is_open := 0 }, { d := dA, t := tB, is_open := 1 }],
    bookings := [], next_id := 1 }

/-- An empty database. -/
def dbEmpty : Db :=
  { slots := [], bookings := [], next_id := 1 }

/-- A fully collected session for (dA, tA). -/
def sessFull : Session :=
  { service := some SERV_LAMI, ext_type := none, day := some dA, time := some tA,
    client_name := some nameA, phone := some phoneA }

/-- A session that has reached the phone stage (no phone yet). -/
def sessAtPhone : Session :=
  { service := some SERV_LAMI, ext_type := none, day := some dA, time := some tA,
    client_name := some nameA, phone := none }

/-- Book request of user 1 for (dA, tA). -/
def reqA : BookReq :=
  { user_id := 1, username := userNameA, client_name := nameA, phone := phoneA,
    service := SERV_LAMI, ext_type := none, d := dA, t := tA, created_at := tsA }

/-- Book request of user 2 for the same slot (dA, tA). -/
def reqB : BookReq :=
  { user_id := 2, username := userNameA, client_name := nameA, phone := phoneA,
    service := SERV_LAMI, ext_type := none, d := dA, t := tA, created_at := tsA }

/-- A constant key-to-instant interpretation placing every appointment at
minute 1440, used to instantiate the reminder theorem. -/
def tmin0 : String → String → Option Int :=
  fun _ _ => some 1440

/-- Three sweeps inside the day window: delivery fails, succeeds, succeeds. -/
def envs0 : List SweepEnv :=
  [{ nowMin := 0, dayDelivers := false, hourDelivers := false },
   { nowMin := 0, dayDelivers := true, hourDelivers := false },
   { nowMin := 0, dayDelivers := true, hourDelivers := true }]

/-- Booking bk1 active on the closed slot (dA, tA), with a second open slot
(dA, tB) available as a move target. -/
def dbMove : Db :=
  { slots := [{ d := dA, t := tA, is_open := 0 }, { d := dA, t := tB, is_open := 1 }],
    bookings := [bk1], next_id := 2 }

/-- The open target slot of dbMove. -/
def slotB : Slot :=
  { d := dA, t := tB, is_open := 1 }

/-- A phone input with fewer than 9 digits. -/
def phoneShort : String := "123"

/- ================== table lemmas ================== -/

lemma slotsLookup_mem {ss : List Slot} {d t : String} {s : Slot}
    (h : slotsLookup ss d t = some s) : s ∈ ss ∧ s.d = d ∧ s.t = t := by
  induction ss with
  | nil => simp [slotsLookup] at h
  | cons a as ih =>
    by_cases hk : a.d = d ∧ a.t = t
    · simp [slotsLookup, hk] at h
      subst h
      exact ⟨List.mem_cons_self _ _, hk⟩
    · simp [slotsLookup, hk] at h
      rcases ih h with ⟨h1, h2, h3⟩
      exact ⟨List.mem_cons_of_mem _ h1, h2, h3⟩

lemma slotsLookup_eq_none {ss : List Slot} {d t : String} :
    slotsLookup ss d t = none ↔ ∀ s ∈ ss, ¬(s.d = d ∧ s.t = t) := by
  induction ss with
  | nil => simp [slotsLookup]
  | cons a as ih =>
    by_cases hk : a.d = d ∧ a.t = t
    · simp [slotsLookup, hk]
    · simp only [slotsLookup, if_neg hk, ih, List.mem_cons]
      constructor
      · intro h s hs
        rcases hs with hs | hs
        · subst hs; exact hk
        · exact h s hs
      · intro h s hs
        exact h s (Or.inr hs)

lemma setOpen_key_d (s : Slot) (d t : String) (v : Nat) :
    (if s.d = d ∧ s.t = t then { s with is_open := v } else s).d = s.d := by
  split <;> rfl

lemma setOpen_key_t (s : Slot) (d t : String) (v : Nat) :
    (if s.d = d ∧ s.t = t then { s with is_open := v } else s).t = s.t := by
  split <;> rfl

lemma slotsLookup_setSlotOpen (ss : List Slot) (d t : String) (v : Nat) (d2 t2 : String) :
    slotsLookup (setSlotOpen ss d t v) d2 t2 =
      (slotsLookup ss d2 t2).map
        (fun s => if s.d = d ∧ s.t = t then { s with is_open := v } else s) := by
  induction ss with
  | nil => simp [slotsLookup, setSlotOpen]
  | cons a as ih =>
    simp only [setSlotOpen, slotsLookup, setOpen_key_d, setOpen_key_t]
    by_cases hk : a.d = d2 ∧ a.t = t2
    · rw [if_pos hk, if_pos hk]
      rfl
    · rw [if_neg hk, if_neg hk]
      exact ih

lemma slotsLookup_append (xs ys : List Slot) (d t : String) :
    slotsLookup (xs ++ ys) d t =
      match slotsLookup xs d t with
      | some s => some s
      | none => slotsLookup ys d t := by
  induction xs with
  | nil => simp [slotsLookup]
  | cons a as ih =>
    by_cases hk : a.d = d ∧ a.t = t
    · simp [slotsLookup, hk]
    · simp [slotsLookup, hk, ih]

lemma mem_setSlotOpen {ss : List Slot} {d t : String} {v : Nat} {s2 : Slot} :
    s2 ∈ setSlotOpen ss d t v ↔
      ∃ s ∈ ss, s2 = if s.d = d ∧ s.t = t then { s with is_open := v } else s := by
  induction ss with
  | nil => simp [setSlotOpen]
  | cons a as ih =>
    simp only [setSlotOpen, List.mem_cons, ih]
    constructor
    · rintro (h | ⟨s, hs, hseq⟩)
      · exact ⟨a, Or.inl rfl, h⟩
      · exact ⟨s, Or.inr hs, hseq⟩
    · rintro ⟨s, hs | hs, hseq⟩
      · subst hs; exact Or.inl hseq
      · exact Or.inr ⟨s, hs, hseq⟩

lemma bookingLookup_mem {bs : List Booking} {bid : Nat} {b : Booking}
    (h : bookingLookup bs bid = some b) : b ∈ bs ∧ b.id = bid := by
  induction bs with
  | nil => simp [bookingLookup] at h
  | cons a as ih =>
    by_cases hk : a.id = bid
    · simp [bookingLookup, hk] at h
      subst h
      exact ⟨List.mem_cons_self _ _, hk⟩
    · simp [bookingLookup, hk] at h
      rcases ih h with ⟨h1, h2⟩
      exact ⟨List.mem_cons_of_mem _ h1, h2⟩

lemma cancel_key_id (b : Booking) (bid : Nat) :
    (if b.id = bid then { b with status := "canceled" } else b).id = b.id := by
  split <;> rfl

lemma repoint_key_id (b : Booking) (bid : Nat) (nd nt : String) :
    (if b.id = bid then
      { b with d := nd, t := nt, reminded_day := 0, reminded_hour := 0 } else b).id
      = b.id := by
  split <;> rfl

lemma bookingLookup_cancelById (bs : List Booking) (bid bid2 : Nat) :
    bookingLookup (cancelById bs bid) bid2 =
      (bookingLookup bs bid2).map
        (fun b => if b.id = bid then { b with status := "canceled" } else b) := by
  induction bs with
  | nil => simp [bookingLookup, cancelById]
  | cons a as ih =>
    simp only [cancelById, bookingLookup, cancel_key_id]
    by_cases hk : a.id = bid2
    · rw [if_pos hk, if_pos hk]
      rfl
    · rw [if_neg hk, if_neg hk]
      exact ih

lemma bookingLookup_repointById (bs : List Booking) (bid : Nat) (nd nt : String)
    (bid2 : Nat) :
    bookingLookup (repointById bs bid nd nt) bid2 =
      (bookingLookup bs bid2).map
        (fun b => if b.id = bid then
          { b with d := nd, t := nt, reminded_day := 0, reminded_hour := 0 } else b) := by
  induction bs with
  | nil => simp [bookingLookup, repointById]
  | cons a as ih =>
    simp only [repointById, bookingLookup, repoint_key_id]
    by_cases hk : a.id = bid2
    · rw [if_pos hk, if_pos hk]
      rfl
    · rw [if_neg hk, if_neg hk]
      exact ih

lemma activeCount_append (xs ys : List Booking) (d t : String) :
    activeCount (xs ++ ys) d t = activeCount xs d t + activeCount ys d t := by
  induction xs with
  | nil => simp [activeCount]
  | cons a as ih => simp [activeCount, ih]; ring

lemma activeCount_pos_of_mem {bs : List Booking} {b : Booking}
    (hmem : b ∈ bs) (hact : b.status = "active") :
    1 ≤ activeCount bs b.d b.t := by
  induction bs with
  | nil => simp at hmem
  | cons a as ih =>
    rcases List.mem_cons.mp hmem with h | h
    · subst h
      simp [activeCount, hact]
    · have := ih h
      simp only [activeCount]
      omega

lemma exists_active_of_pos {bs : List Booking} {d t : String}
    (h : 1 ≤ activeCount bs d t) :
    ∃ b ∈ bs, b.status = "active" ∧ b.d = d ∧ b.t = t := by
  induction bs with
  | nil => simp [activeCount] at h
  | cons a as ih =>
    by_cases hk : a.status = "active" ∧ a.d = d ∧ a.t = t
    · exact ⟨a, List.mem_cons_self _ _, hk⟩
    · simp only [activeCount, if_neg hk, Nat.zero_add] at h
      rcases ih h with ⟨b, hb, hprop⟩
      exact ⟨b, List.mem_cons_of_mem _ hb, hprop⟩

lemma bookingLookup_decomp {bs : List Booking} {bid : Nat} {b : Booking}
    (h : bookingLookup bs bid = some b) :
    ∃ l1 l2, bs = l1 ++ b :: l2 ∧ ∀ x ∈ l1, x.id ≠ bid := by
  induction bs with
  | nil => simp [bookingLookup] at h
  | cons a as ih =>
    by_cases hk : a.id = bid
    · simp [bookingLookup, hk] at h
      subst h
      exact ⟨[], as, rfl, by simp⟩
    · simp [bookingLookup, hk] at h
      rcases ih h with ⟨l1, l2, heq, hne⟩
      refine ⟨a :: l1, l2, by simp [heq], ?_⟩
      intro x hx
      rcases List.mem_cons.mp hx with hx | hx
      · subst hx; exact hk
      · exact hne x hx

lemma cancelById_of_forall_ne {l : List Booking} {bid : Nat}
    (h : ∀ x ∈ l, x.id ≠ bid) : cancelById l bid = l := by
  induction l with
  | nil => rfl
  | cons a as ih =>
    have ha := h a (List.mem_cons_self _ _)
    simp [cancelById, ha, ih fun x hx => h x (List.mem_cons_of_mem _ hx)]

lemma cancelById_append (xs ys : List Booking) (bid : Nat) :
    cancelById (xs ++ ys) bid = cancelById xs bid ++ cancelById ys bid := by
  induction xs with
  | nil => rfl
  | cons a as ih => simp [cancelById, ih]

lemma repointById_of_forall_ne {l : List Booking} {bid : Nat} {nd nt : String}
    (h : ∀ x ∈ l, x.id ≠ bid) : repointById l bid nd nt = l := by
  induction l with
  | nil => rfl
  | cons a as ih =>
    have ha := h a (List.mem_cons_self _ _)
    simp [repointById, ha, ih fun x hx => h x (List.mem_cons_of_mem _ hx)]

lemma repointById_append (xs ys : List Booking) (bid : Nat) (nd nt : String) :
    repointById (xs ++ ys) bid nd nt =
      repointById xs bid nd nt ++ repointById ys bid nd nt := by
  induction xs with
  | nil => rfl
  | cons a as ih => simp [repointById, ih]

lemma book_check_eq_true {db : Db} {d t : String} :
    book_check db d t = true ↔
      ∃ s, slotsLookup db.slots d t = some s ∧ s.is_open = 1 := by
  unfold book_check
  cases h : slotsLookup db.slots d t with
  | none => simp
  | some s => simp

/- ================== invariant preservation lemmas ================== -/

lemma pairwise_setSlotOpen {ss : List Slot} (d t : String) (v : Nat)
    (h : List.Pairwise (fun (x y : Slot) => ¬(x.d = y.d ∧ x.t = y.t)) ss) :
    List.Pairwise (fun (x y : Slot) => ¬(x.d = y.d ∧ x.t = y.t)) (setSlotOpen ss d t v) := by
  induction ss with
  | nil => simp [setSlotOpen]
  | cons a as ih =>
    rw [List.pairwise_cons] at h
    simp only [setSlotOpen]
    rw [List.pairwise_cons]
    constructor
    · intro y hy
      obtain ⟨s0, hs0, hy0⟩ := mem_setSlotOpen.mp hy
      have hyd : y.d = s0.d := by rw [hy0]; exact setOpen_key_d s0 d t v
      have hyt : y.t = s0.t := by rw [hy0]; exact setOpen_key_t s0 d t v
      rw [setOpen_key_d, setOpen_key_t, hyd, hyt]
      exact h.1 s0 hs0
    · exact ih h.2

lemma pairwise_id_replace {l1 l2 : List Booking} {b c : Booking} (hid : c.id = b.id)
    (h : List.Pairwise (fun (x y : Booking) => x.id ≠ y.id) (l1 ++ b :: l2)) :
    List.Pairwise (fun (x y : Booking) => x.id ≠ y.id) (l1 ++ c :: l2) := by
  rw [List.pairwise_append] at h ⊢
  obtain ⟨h1, h2, h3⟩ := h
  rw [List.pairwise_cons] at h2
  refine ⟨h1, ?_, ?_⟩
  · rw [List.pairwise_cons]
    exact ⟨fun y hy => by rw [hid]; exact h2.1 y hy, h2.2⟩
  · intro x hx y hy
    rcases List.mem_cons.mp hy with hy | hy
    · subst hy
      rw [hid]
      exact h3 x hx b (List.mem_cons_self _ _)
    · exact h3 x hx y (List.mem_cons_of_mem _ hy)


lemma DbInv_mk (A : List Slot) (B : List Booking) (n : Nat) :
    DbInv { slots := A, bookings := B, next_id := n } ↔
      ((∀ s ∈ A, (s.is_open = 1 ↔ activeCount B s.d s.t = 0)) ∧
        (∀ b ∈ B, b.status = "active" → activeCount B b.d b.t ≤ 1) ∧
        (∀ b ∈ B, b.status = "active" → (slotsLookup A b.d b.t).isSome = true)) :=
  Iff.rfl

lemma DbWF_mk (A : List Slot) (B : List Booking) (n : Nat) :
    DbWF { slots := A, bookings := B, next_id := n } ↔
      ((∀ b ∈ B, b.id < n) ∧
        List.Pairwise (fun (x y : Booking) => x.id ≠ y.id) B ∧
        List.Pairwise (fun (x y : Slot) => ¬(x.d = y.d ∧ x.t = y.t)) A ∧
        (∀ b ∈ B, b.status = "active" ∨ b.status = "canceled")) :=
  Iff.rfl

lemma book_slot_preserves (db : Db) (uid : Int) (un cn ph sv : String)
    (et : Option String) (d t ca : String) (hw : DbWF db) (hi : DbInv db) :
    DbInv (book_slot db uid un cn ph sv et d t ca).1 ∧
      DbWF (book_slot db uid un cn ph sv et d t ca).1 := by
  obtain ⟨hinv, hone, hnod⟩ := hi
  obtain ⟨hbound, hids, hkeys, hstat⟩ := hw
  by_cases hc : book_check db d t = true
  swap
  · have hpost : (book_slot db uid un cn ph sv et d t ca).1 = db := by
      unfold book_slot
      rw [if_neg hc]
    rw [hpost]
    exact ⟨⟨hinv, hone, hnod⟩, hbound, hids, hkeys, hstat⟩
  have hpost : (book_slot db uid un cn ph sv et d t ca).1 =
      { slots := setSlotOpen db.slots d t 0,
        bookings := db.bookings ++ [mkBooking db.next_id uid un cn ph sv et d t ca],
        next_id := db.next_id + 1 } := by
    unfold book_slot
    rw [if_pos hc]
    rfl
  obtain ⟨s, hs, hopen⟩ := book_check_eq_true.mp hc
  obtain ⟨hsmem, hsd, hst⟩ := slotsLookup_mem hs
  have hcount0 : activeCount db.bookings d t = 0 := by
    have h0 := (hinv s hsmem).mp hopen
    rw [hsd, hst] at h0
    exact h0
  rw [hpost, DbInv_mk, DbWF_mk]
  generalize hnbd : mkBooking db.next_id uid un cn ph sv et d t ca = nb
  have hnbkd : nb.d = d := by rw [← hnbd]; rfl
  have hnbkt : nb.t = t := by rw [← hnbd]; rfl
  have hnbs : nb.status = "active" := by rw [← hnbd]; rfl
  have hnbid : nb.id = db.next_id := by rw [← hnbd]; rfl
  have hcnt : ∀ d2 t2, activeCount (db.bookings ++ [nb]) d2 t2
      = activeCount db.bookings d2 t2 + (if d = d2 ∧ t = t2 then 1 else 0) := by
    intro d2 t2
    rw [activeCount_append]
    congr 1
    simp [activeCount, hnbs, hnbkd, hnbkt]
  refine ⟨⟨?_, ?_, ?_⟩, ?_, ?_, ?_, ?_⟩
  · -- slotInvariant
    intro s2 hs2
    obtain ⟨s0, hs0, hs2eq⟩ := mem_setSlotOpen.mp hs2
    by_cases hcond : s0.d = d ∧ s0.t = t
    · rw [if_pos hcond] at hs2eq
      subst hs2eq
      rw [hcnt]
      dsimp only
      rw [hcond.1, hcond.2, hcount0]
      simp
    · rw [if_neg hcond] at hs2eq
      subst hs2eq
      have hns : ¬(d = s2.d ∧ t = s2.t) := fun h0 => hcond ⟨h0.1.symm, h0.2.symm⟩
      rw [hcnt, if_neg hns, Nat.add_zero]
      exact hinv s2 hs0
  · -- atMostOneActive
    intro b2 hb2 hb2act
    rcases List.mem_append.mp hb2 with hb2m | hb2m
    · by_cases hkey : d = b2.d ∧ t = b2.t
      · exfalso
        have hpos := activeCount_pos_of_mem hb2m hb2act
        rw [← hkey.1, ← hkey.2, hcount0] at hpos
        omega
      · rw [hcnt, if_neg hkey, Nat.add_zero]
        exact hone b2 hb2m hb2act
    · have hb2eq : b2 = nb := by simpa using hb2m
      subst hb2eq
      rw [hcnt, hnbkd, hnbkt, hcount0]
      simp
  · -- noDangling
    intro b2 hb2 hb2act
    rcases List.mem_append.mp hb2 with hb2m | hb2m
    · have := hnod b2 hb2m hb2act
      rw [slotsLookup_setSlotOpen]
      simpa using this
    · have hb2eq : b2 = nb := by simpa using hb2m
      subst hb2eq
      rw [hnbkd, hnbkt, slotsLookup_setSlotOpen, hs]
      rfl
  · -- id bound
    intro b2 hb2
    rcases List.mem_append.mp hb2 with hb2m | hb2m
    · have := hbound b2 hb2m
      omega
    · have hb2eq : b2 = nb := by simpa using hb2m
      subst hb2eq
      rw [hnbid]
      omega
  · -- pairwise ids
    rw [List.pairwise_append]
    refine ⟨hids, by simp, ?_⟩
    intro x hx y hy
    have hyeq : y = nb := by simpa using hy
    subst hyeq
    rw [hnbid]
    have := hbound x hx
    omega
  · -- pairwise slot keys
    exact pairwise_setSlotOpen d t 0 hkeys
  · -- statuses
    intro b2 hb2
    rcases List.mem_append.mp hb2 with hb2m | hb2m
    · exact hstat b2 hb2m
    · have hb2eq : b2 = nb := by simpa using hb2m
      subst hb2eq
      exact Or.inl hnbs

lemma cancel_booking_preserves (db : Db) (bid : Nat) (hw : DbWF db) (hi : DbInv db) :
    DbInv (cancel_booking db bid).1 ∧ DbWF (cancel_booking db bid).1 := by
  obtain ⟨hinv, hone, hnod⟩ := hi
  obtain ⟨hbound, hids, hkeys, hstat⟩ := hw
  cases hb : bookingLookup db.bookings bid with
  | none =>
    have hpost : (cancel_booking db bid).1 = db := by
      simp only [cancel_booking, hb]
    rw [hpost]
    exact ⟨⟨hinv, hone, hnod⟩, hbound, hids, hkeys, hstat⟩
  | some row =>
    by_cases hcanc : row.status = "canceled"
    · have hpost : (cancel_booking db bid).1 = db := by
        simp only [cancel_booking, hb, if_pos hcanc]
      rw [hpost]
      exact ⟨⟨hinv, hone, hnod⟩, hbound, hids, hkeys, hstat⟩
    obtain ⟨hrowmem, hrowid⟩ := bookingLookup_mem hb
    have hact : row.status = "active" := by
      rcases hstat row hrowmem with h | h
      · exact h
      · exact absurd h hcanc
    obtain ⟨l1, l2, hsplit, hl1⟩ := bookingLookup_decomp hb
    have hl2 : ∀ x ∈ l2, x.id ≠ bid := by
      have hp := hids
      rw [hsplit, List.pairwise_append] at hp
      have hrl2 := (List.pairwise_cons.mp hp.2.1).1
      intro x hx he
      have h2 := hrl2 x hx
      rw [hrowid, he] at h2
      exact h2 rfl
    have hcb : cancelById db.bookings bid =
        l1 ++ { row with status := "canceled" } :: l2 := by
      rw [hsplit, cancelById_append, cancelById_of_forall_ne hl1]
      simp only [cancelById]
      rw [if_pos hrowid, cancelById_of_forall_ne hl2]
    have hpost : (cancel_booking db bid).1 =
        { slots := setSlotOpen db.slots row.d row.t 1,
          bookings := l1 ++ { row with status := "canceled" } :: l2,
          next_id := db.next_id } := by
      simp only [cancel_booking, hb, if_neg hcanc]
      rw [hcb]
    have hmem_of : ∀ x : Booking, x ∈ l1 ∨ x ∈ l2 → x ∈ db.bookings := by
      intro x hx
      rw [hsplit]
      rcases hx with hx | hx
      · exact List.mem_append_left _ hx
      · exact List.mem_append_right _ (List.mem_cons_of_mem _ hx)
    have hcnt : ∀ d2 t2,
        activeCount (l1 ++ { row with status := "canceled" } :: l2) d2 t2 +
          (if row.d = d2 ∧ row.t = t2 then 1 else 0)
        = activeCount db.bookings d2 t2 := by
      intro d2 t2
      rw [hsplit, activeCount_append, activeCount_append]
      simp only [activeCount]
      split_ifs <;> try simp_all
      all_goals omega
    have hone_row : activeCount db.bookings row.d row.t = 1 := by
      have h1 := activeCount_pos_of_mem hrowmem hact
      have h2 := hone row hrowmem hact
      omega
    have hpost0 :
        activeCount (l1 ++ { row with status := "canceled" } :: l2) row.d row.t = 0 := by
      have h3 := hcnt row.d row.t
      rw [if_pos ⟨rfl, rfl⟩, hone_row] at h3
      omega
    rw [hpost, DbInv_mk, DbWF_mk]
    refine ⟨⟨?_, ?_, ?_⟩, ?_, ?_, ?_, ?_⟩
    · -- slotInvariant
      intro s2 hs2
      obtain ⟨s0, hs0, hs2eq⟩ := mem_setSlotOpen.mp hs2
      by_cases hcond : s0.d = row.d ∧ s0.t = row.t
      · rw [if_pos hcond] at hs2eq
        subst hs2eq
        dsimp only
        rw [hcond.1, hcond.2, hpost0]
        simp
      · rw [if_neg hcond] at hs2eq
        subst hs2eq
        have hns : ¬(row.d = s2.d ∧ row.t = s2.t) :=
          fun h0 => hcond ⟨h0.1.symm, h0.2.symm⟩
        have h3 := hcnt s2.d s2.t
        rw [if_neg hns, Nat.add_zero] at h3
        rw [h3]
        exact hinv s2 hs0
    · -- atMostOneActive
      intro b2 hb2 hb2act
      have hb2cases : b2 ∈ l1 ∨ b2 = { row with status := "canceled" } ∨ b2 ∈ l2 := by
        rcases List.mem_append.mp hb2 with h | h
        · exact Or.inl h
        · rcases List.mem_cons.mp h with h | h
          · exact Or.inr (Or.inl h)
          · exact Or.inr (Or.inr h)
      rcases hb2cases with hm | hm | hm
      · have hb2db := hmem_of b2 (Or.inl hm)
        have h3 := hcnt b2.d b2.t
        have h4 := hone b2 hb2db hb2act
        by_cases hkk : row.d = b2.d ∧ row.t = b2.t
        · rw [if_pos hkk] at h3
          omega
        · rw [if_neg hkk] at h3
          omega
      · exfalso
        rw [hm] at hb2act
        exact absurd (show ("canceled" : String) = "active" from hb2act) (by decide)
      · have hb2db := hmem_of b2 (Or.inr hm)
        have h3 := hcnt b2.d b2.t
        have h4 := hone b2 hb2db hb2act
        by_cases hkk : row.d = b2.d ∧ row.t = b2.t
        · rw [if_pos hkk] at h3
          omega
        · rw [if_neg hkk] at h3
          omega
    · -- noDangling
      intro b2 hb2 hb2act
      have hb2cases : b2 ∈ l1 ∨ b2 = { row with status := "canceled" } ∨ b2 ∈ l2 := by
        rcases List.mem_append.mp hb2 with h | h
        · exact Or.inl h
        · rcases List.mem_cons.mp h with h | h
          · exact Or.inr (Or.inl h)
          · exact Or.inr (Or.inr h)
      rcases hb2cases with hm | hm | hm
      · have := hnod b2 (hmem_of b2 (Or.inl hm)) hb2act
        rw [slotsLookup_setSlotOpen]
        simpa using this
      · exfalso
        rw [hm] at hb2act
        exact absurd (show ("canceled" : String) = "active" from hb2act) (by decide)
      · have := hnod b2 (hmem_of b2 (Or.inr hm)) hb2act
        rw [slotsLookup_setSlotOpen]
        simpa using this
    · -- id bound
      intro b2 hb2
      have hb2cases : b2 ∈ l1 ∨ b2 = { row with status := "canceled" } ∨ b2 ∈ l2 := by
        rcases List.mem_append.mp hb2 with h | h
        · exact Or.inl h
        · rcases List.mem_cons.mp h with h | h
          · exact Or.inr (Or.inl h)
          · exact Or.inr (Or.inr h)
      rcases hb2cases with hm | hm | hm
      · exact hbound b2 (hmem_of b2 (Or.inl hm))
      · rw [hm]
        exact hbound row hrowmem
      · exact hbound b2 (hmem_of b2 (Or.inr hm))
    · -- pairwise ids
      have hidrepl : ({ row with status := "canceled" } : Booking).id = row.id := rfl
      rw [hsplit] at hids
      exact pairwise_id_replace hidrepl hids
    · -- pairwise slot keys
      exact pairwise_setSlotOpen row.d row.t 1 hkeys
    · -- statuses
      intro b2 hb2
      have hb2cases : b2 ∈ l1 ∨ b2 = { row with status := "canceled" } ∨ b2 ∈ l2 := by
        rcases List.mem_append.mp hb2 with h | h
        · exact Or.inl h
        · rcases List.mem_cons.mp h with h | h
          · exact Or.inr (Or.inl h)
          · exact Or.inr (Or.inr h)
      rcases hb2cases with hm | hm | hm
      · exact hstat b2 (hmem_of b2 (Or.inl hm))
      · rw [hm]
        exact Or.inr rfl
      · exact hstat b2 (hmem_of b2 (Or.inr hm))

lemma move_booking_preserves (db : Db) (bid : Nat) (nd nt : String)
    (hw : DbWF db) (hi : DbInv db) :
    DbInv (move_booking db bid nd nt).1 ∧ DbWF (move_booking db bid nd nt).1 := by
  obtain ⟨hinv, hone, hnod⟩ := hi
  obtain ⟨hbound, hids, hkeys, hstat⟩ := hw
  cases hb : bookingLookup db.bookings bid with
  | none =>
    have hpost : (move_booking db bid nd nt).1 = db := by
      simp only [move_booking, hb]
    rw [hpost]
    exact ⟨⟨hinv, hone, hnod⟩, hbound, hids, hkeys, hstat⟩
  | some row =>
    by_cases hact : row.status = "active"
    swap
    · have hpost : (move_booking db bid nd nt).1 = db := by
        simp only [move_booking, hb, if_pos hact]
      rw [hpost]
      exact ⟨⟨hinv, hone, hnod⟩, hbound, hids, hkeys, hstat⟩
    have hact2 : ¬row.status ≠ "active" := fun h => h hact
    cases hs2 : slotsLookup db.slots nd nt with
    | none =>
      have hpost : (move_booking db bid nd nt).1 = db := by
        simp only [move_booking, hb, if_neg hact2, hs2]
      rw [hpost]
      exact ⟨⟨hinv, hone, hnod⟩, hbound, hids, hkeys, hstat⟩
    | some s2 =>
      by_cases hopen : s2.is_open = 1
      swap
      · have hopen2 : s2.is_open ≠ 1 := hopen
        have hpost : (move_booking db bid nd nt).1 = db := by
          simp only [move_booking, hb, if_neg hact2, hs2, if_pos hopen2]
        rw [hpost]
        exact ⟨⟨hinv, hone, hnod⟩, hbound, hids, hkeys, hstat⟩
      have hopen2 : ¬s2.is_open ≠ 1 := fun h => h hopen
      obtain ⟨hrowmem, hrowid⟩ := bookingLookup_mem hb
      obtain ⟨hs2mem, hs2d, hs2t⟩ := slotsLookup_mem hs2
      have hnew0 : activeCount db.bookings nd nt = 0 := by
        have h0 := (hinv s2 hs2mem).mp hopen
        rw [hs2d, hs2t] at h0
        exact h0
      have hkeyne : ¬(row.d = nd ∧ row.t = nt) := by
        intro hk
        have hpos := activeCount_pos_of_mem hrowmem hact
        rw [hk.1, hk.2, hnew0] at hpos
        omega
      obtain ⟨l1, l2, hsplit, hl1⟩ := bookingLookup_decomp hb
      have hl2 : ∀ x ∈ l2, x.id ≠ bid := by
        have hp := hids
        rw [hsplit, List.pairwise_append] at hp
        have hrl2 := (List.pairwise_cons.mp hp.2.1).1
        intro x hx he
        have h2 := hrl2 x hx
        rw [hrowid, he] at h2
        exact h2 rfl
      have hrp : repointById db.bookings bid nd nt =
          l1 ++ { row with d := nd, t := nt, reminded_day := 0, reminded_hour := 0 } :: l2 := by
        rw [hsplit, repointById_append, repointById_of_forall_ne hl1]
        simp only [repointById]
        rw [if_pos hrowid, repointById_of_forall_ne hl2]
      have hpost : (move_booking db bid nd nt).1 =
          { slots := setSlotOpen (setSlotOpen db.slots row.d row.t 1) nd nt 0,
            bookings :=
              l1 ++ { row with d := nd, t := nt, reminded_day := 0, reminded_hour := 0 } :: l2,
            next_id := db.next_id } := by
        simp only [move_booking, hb, if_neg hact2, hs2, if_neg hopen2]
        rw [hrp]
      have hmem_of : ∀ x : Booking, x ∈ l1 ∨ x ∈ l2 → x ∈ db.bookings := by
        intro x hx
        rw [hsplit]
        rcases hx with hx | hx
        · exact List.mem_append_left _ hx
        · exact List.mem_append_right _ (List.mem_cons_of_mem _ hx)
      have hcnt : ∀ d2 t2,
          activeCount
              (l1 ++ { row with d := nd, t := nt, reminded_day := 0, reminded_hour := 0 } :: l2)
              d2 t2 +
            (if row.d = d2 ∧ row.t = t2 then 1 else 0)
          = activeCount db.bookings d2 t2 + (if nd = d2 ∧ nt = t2 then 1 else 0) := by
        intro d2 t2
        rw [hsplit, activeCount_append, activeCount_append]
        simp only [activeCount]
        split_ifs <;> try simp_all
        all_goals omega
      have hone_row : activeCount db.bookings row.d row.t = 1 := by
        have h1 := activeCount_pos_of_mem hrowmem hact
        have h2 := hone row hrowmem hact
        omega
      have hpost_old : activeCount
          (l1 ++ { row with d := nd, t := nt, reminded_day := 0, reminded_hour := 0 } :: l2)
          row.d row.t = 0 := by
        have h3 := hcnt row.d row.t
        have hne2 : ¬(nd = row.d ∧ nt = row.t) := fun h0 => hkeyne ⟨h0.1.symm, h0.2.symm⟩
        rw [if_pos ⟨rfl, rfl⟩, if_neg hne2, hone_row] at h3
        omega
      have hpost_new : activeCount
          (l1 ++ { row with d := nd, t := nt, reminded_day := 0, reminded_hour := 0 } :: l2)
          nd nt = 1 := by
        have h3 := hcnt nd nt
        rw [if_neg hkeyne, if_pos ⟨rfl, rfl⟩, hnew0] at h3
        omega
      rw [hpost, DbInv_mk, DbWF_mk]
      refine ⟨⟨?_, ?_, ?_⟩, ?_, ?_, ?_, ?_⟩
      · -- slotInvariant
        intro s3 hs3
        obtain ⟨s1, hs1, hs3eq⟩ := mem_setSlotOpen.mp hs3
        obtain ⟨s0, hs0, hs1eq⟩ := mem_setSlotOpen.mp hs1
        have hs1d : s1.d = s0.d := by rw [hs1eq]; exact setOpen_key_d s0 row.d row.t 1
        have hs1t : s1.t = s0.t := by rw [hs1eq]; exact setOpen_key_t s0 row.d row.t 1
        by_cases hA : s0.d = nd ∧ s0.t = nt
        · -- the target slot row: closed, one active appointment
          have hA1 : s1.d = nd ∧ s1.t = nt := ⟨hs1d.trans hA.1, hs1t.trans hA.2⟩
          rw [if_pos hA1] at hs3eq
          have hnotrow : ¬(s0.d = row.d ∧ s0.t = row.t) := by
            intro h0
            exact hkeyne ⟨(h0.1.symm.trans hA.1), (h0.2.symm.trans hA.2)⟩
          rw [if_neg hnotrow] at hs1eq
          subst hs1eq
          subst hs3eq
          dsimp only
          rw [hA.1, hA.2, hpost_new]
          simp
        · by_cases hB : s0.d = row.d ∧ s0.t = row.t
          · -- the old slot row: reopened, no active appointment
            have hB1 : ¬(s1.d = nd ∧ s1.t = nt) := by
              intro h0
              exact hA ⟨hs1d.symm.trans h0.1, hs1t.symm.trans h0.2⟩
            rw [if_neg hB1] at hs3eq
            rw [if_pos hB] at hs1eq
            subst hs3eq
            subst hs1eq
            dsimp only
            rw [hB.1, hB.2, hpost_old]
            simp
          · -- untouched slot rows
            have hB1 : ¬(s1.d = nd ∧ s1.t = nt) := by
              intro h0
              exact hA ⟨hs1d.symm.trans h0.1, hs1t.symm.trans h0.2⟩
            rw [if_neg hB1] at hs3eq
            rw [if_neg hB] at hs1eq
            subst hs3eq
            subst hs1eq
            have hn1 : ¬(row.d = s3.d ∧ row.t = s3.t) :=
              fun h0 => hB ⟨h0.1.symm, h0.2.symm⟩
            have hn2 : ¬(nd = s3.d ∧ nt = s3.t) :=
              fun h0 => hA ⟨h0.1.symm, h0.2.symm⟩
            have h3 := hcnt s3.d s3.t
            rw [if_neg hn1, if_neg hn2, Nat.add_zero, Nat.add_zero] at h3
            rw [h3]
            exact hinv s3 hs0
      · -- atMostOneActive
        intro b3 hb3 hb3act
        have hb3cases : b3 ∈ l1 ∨
            b3 = { row with d := nd, t := nt, reminded_day := 0, reminded_hour := 0 } ∨
            b3 ∈ l2 := by
          rcases List.mem_append.mp hb3 with h | h
          · exact Or.inl h
          · rcases List.mem_cons.mp h with h | h
            · exact Or.inr (Or.inl h)
            · exact Or.inr (Or.inr h)
        rcases hb3cases with hm | hm | hm
        · by_cases hk1 : nd = b3.d ∧ nt = b3.t
          · rw [← hk1.1, ← hk1.2, hpost_new]
          · by_cases hk2 : row.d = b3.d ∧ row.t = b3.t
            · rw [← hk2.1, ← hk2.2, hpost_old]
              omega
            · have h3 := hcnt b3.d b3.t
              rw [if_neg hk2, if_neg hk1, Nat.add_zero, Nat.add_zero] at h3
              rw [h3]
              exact hone b3 (hmem_of b3 (Or.inl hm)) hb3act
        · rw [hm]
          dsimp only
          rw [hpost_new]
        · by_cases hk1 : nd = b3.d ∧ nt = b3.t
          · rw [← hk1.1, ← hk1.2, hpost_new]
          · by_cases hk2 : row.d = b3.d ∧ row.t = b3.t
            · rw [← hk2.1, ← hk2.2, hpost_old]
              omega
            · have h3 := hcnt b3.d b3.t
              rw [if_neg hk2, if_neg hk1, Nat.add_zero, Nat.add_zero] at h3
              rw [h3]
              exact hone b3 (hmem_of b3 (Or.inr hm)) hb3act
      · -- noDangling
        intro b3 hb3 hb3act
        have hb3cases : b3 ∈ l1 ∨
            b3 = { row with d := nd, t := nt, reminded_day := 0, reminded_hour := 0 } ∨
            b3 ∈ l2 := by
          rcases List.mem_append.mp hb3 with h | h
          · exact Or.inl h
          · rcases List.mem_cons.mp h with h | h
            · exact Or.inr (Or.inl h)
            · exact Or.inr (Or.inr h)
        rcases hb3cases with hm | hm | hm
        · have := hnod b3 (hmem_of b3 (Or.inl hm)) hb3act
          rw [slotsLookup_setSlotOpen, slotsLookup_setSlotOpen]
          simpa using this
        · rw [hm]
          dsimp only
          rw [slotsLookup_setSlotOpen, slotsLookup_setSlotOpen, hs2]
          rfl
        · have := hnod b3 (hmem_of b3 (Or.inr hm)) hb3act
          rw [slotsLookup_setSlotOpen, slotsLookup_setSlotOpen]
          simpa using this
      · -- id bound
        intro b3 hb3
        have hb3cases : b3 ∈ l1 ∨
            b3 = { row with d := nd, t := nt, reminded_day := 0, reminded_hour := 0 } ∨
            b3 ∈ l2 := by
          rcases List.mem_append.mp hb3 with h | h
          · exact Or.inl h
          · rcases List.mem_cons.mp h with h | h
            · exact Or.inr (Or.inl h)
            · exact Or.inr (Or.inr h)
        rcases hb3cases with hm | hm | hm
        · exact hbound b3 (hmem_of b3 (Or.inl hm))
        · rw [hm]
          exact hbound row hrowmem
        · exact hbound b3 (hmem_of b3 (Or.inr hm))
      · -- pairwise ids
        have hidrepl :
            ({ row with d := nd, t := nt, reminded_day := 0, reminded_hour := 0 } : Booking).id
              = row.id := rfl
        rw [hsplit] at hids
        exact pairwise_id_replace hidrepl hids
      · -- pairwise slot keys
        exact pairwise_setSlotOpen nd nt 0 (pairwise_setSlotOpen row.d row.t 1 hkeys)
      · -- statuses
        intro b3 hb3
        have hb3cases : b3 ∈ l1 ∨
            b3 = { row with d := nd, t := nt, reminded_day := 0, reminded_hour := 0 } ∨
            b3 ∈ l2 := by
          rcases List.mem_append.mp hb3 with h | h
          · exact Or.inl h
          · rcases List.mem_cons.mp h with h | h
            · exact Or.inr (Or.inl h)
            · exact Or.inr (Or.inr h)
        rcases hb3cases with hm | hm | hm
        · exact hstat b3 (hmem_of b3 (Or.inl hm))
        · rw [hm]
          exact Or.inl hact
        · exact hstat b3 (hmem_of b3 (Or.inr hm))

lemma add_slot_preserves (db : Db) (d t : String) (hw : DbWF db) (hi : DbInv db) :
    DbInv (add_slot db d t).1 ∧ DbWF (add_slot db d t).1 := by
  obtain ⟨hinv, hone, hnod⟩ := hi
  obtain ⟨hbound, hids, hkeys, hstat⟩ := hw
  cases hs : slotsLookup db.slots d t with
  | some s =>
    have hpost : (add_slot db d t).1 = db := by
      simp only [add_slot, hs]
    rw [hpost]
    exact ⟨⟨hinv, hone, hnod⟩, hbound, hids, hkeys, hstat⟩
  | none =>
    have hpost : (add_slot db d t).1 =
        { slots := db.slots ++ [{ d := d, t := t, is_open := 1 }],
          bookings := db.bookings, next_id := db.next_id } := by
      simp only [add_slot, hs]
    have hnoact : activeCount db.bookings d t = 0 := by
      by_contra h0
      have h1 : 1 ≤ activeCount db.bookings d t := Nat.one_le_iff_ne_zero.mpr h0
      obtain ⟨b, hbm, hba, hbd, hbt⟩ := exists_active_of_pos h1
      have h2 := hnod b hbm hba
      rw [hbd, hbt, hs] at h2
      simp at h2
    have hfresh := slotsLookup_eq_none.mp hs
    rw [hpost, DbInv_mk, DbWF_mk]
    refine ⟨⟨?_, ?_, ?_⟩, ?_, ?_, ?_, ?_⟩
    · intro s3 hs3
      rcases List.mem_append.mp hs3 with hm | hm
      · exact hinv s3 hm
      · have hseq : s3 = { d := d, t := t, is_open := 1 } := by simpa using hm
        subst hseq
        dsimp only
        rw [hnoact]
        simp
    · exact hone
    · intro b3 hb3 hb3act
      have := hnod b3 hb3 hb3act
      rw [slotsLookup_append]
      cases hv : slotsLookup db.slots b3.d b3.t with
      | none => rw [hv] at this; simp at this
      | some s4 => rfl
    · exact hbound
    · exact hids
    · rw [List.pairwise_append]
      refine ⟨hkeys, by simp, ?_⟩
      intro x hx y hy
      have hyeq : y = { d := d, t := t, is_open := 1 } := by simpa using hy
      subst hyeq
      exact hfresh x hx
    · exact hstat

lemma bulk_add_preserves (keys : List (String × String)) :
    ∀ db : Db, DbWF db → DbInv db →
      DbInv (bulk_add_default_slots db keys).1 ∧ DbWF (bulk_add_default_slots db keys).1 := by
  induction keys with
  | nil =>
    intro db hw hi
    exact ⟨hi, hw⟩
  | cons k rest ih =>
    intro db hw hi
    have hstep := add_slot_preserves db k.1 k.2 hw hi
    cases hr : add_slot db k.1 k.2 with
    | mk db1 ok =>
      have hdb1 : DbInv db1 ∧ DbWF db1 := by
        rw [hr] at hstep
        exact hstep
      have hrec := ih db1 hdb1.2 hdb1.1
      cases ok with
      | true =>
        have hpost : (bulk_add_default_slots db (k :: rest)).1 =
            (bulk_add_default_slots db1 rest).1 := by
          simp only [bulk_add_default_slots, hr]
        rw [hpost]
        exact hrec
      | false =>
        have hpost : (bulk_add_default_slots db (k :: rest)).1 =
            (bulk_add_default_slots db1 rest).1 := by
          simp only [bulk_add_default_slots, hr]
        rw [hpost]
        exact hrec

lemma delete_everything_preserves (db : Db) :
    DbInv (delete_everything db) ∧ DbWF (delete_everything db) := by
  constructor
  · exact ⟨by simp [delete_everything, slotInvariant], by simp [delete_everything, atMostOneActive], by simp [delete_everything, noDangling]⟩
  · exact ⟨by simp [delete_everything], by simp [delete_everything], by simp [delete_everything], by simp [delete_everything]⟩

/- ================== reminder sweep lemmas ================== -/

lemma dayPass_keys (env : SweepEnv) (delta : Int) (b : Booking) :
    (dayPass env delta b).1.d = b.d ∧ (dayPass env delta b).1.t = b.t ∧
    (dayPass env delta b).1.status = b.status ∧
    (dayPass env delta b).1.user_id = b.user_id ∧
    (dayPass env delta b).1.reminded_hour = b.reminded_hour := by
  unfold dayPass
  split_ifs <;> simp

lemma dayPass_true (env : SweepEnv) (delta : Int) (b : Booking) :
    (dayPass env delta b).2 = true →
      b.reminded_day = 0 ∧ env.dayDelivers = true ∧
      (dayPass env delta b).1.reminded_day = 1 := by
  unfold dayPass
  split_ifs <;> simp_all

lemma dayPass_false (env : SweepEnv) (delta : Int) (b : Booking) :
    (dayPass env delta b).2 = false →
      (dayPass env delta b).1.reminded_day = b.reminded_day := by
  unfold dayPass
  split_ifs <;> simp_all

lemma hourPass_keys (env : SweepEnv) (delta : Int) (b : Booking) :
    (hourPass env delta b).1.d = b.d ∧ (hourPass env delta b).1.t = b.t ∧
    (hourPass env delta b).1.status = b.status ∧
    (hourPass env delta b).1.user_id = b.user_id ∧
    (hourPass env delta b).1.reminded_day = b.reminded_day := by
  unfold hourPass
  split_ifs <;> simp

lemma hourPass_true (env : SweepEnv) (delta : Int) (b : Booking) :
    (hourPass env delta b).2 = true →
      b.reminded_hour = 0 ∧ env.hourDelivers = true ∧
      (hourPass env delta b).1.reminded_hour = 1 := by
  unfold hourPass
  split_ifs <;> simp_all

lemma hourPass_false (env : SweepEnv) (delta : Int) (b : Booking) :
    (hourPass env delta b).2 = false →
      (hourPass env delta b).1.reminded_hour = b.reminded_hour := by
  unfold hourPass
  split_ifs <;> simp_all

lemma sweepRow_spec (tmin : String → String → Option Int) (env : SweepEnv) (b : Booking) :
    ((sweepRow tmin env b).1.d = b.d ∧ (sweepRow tmin env b).1.t = b.t ∧
      (sweepRow tmin env b).1.status = b.status ∧
      (sweepRow tmin env b).1.user_id = b.user_id) ∧
    ((sweepRow tmin env b).2.1 = true →
      b.reminded_day = 0 ∧ env.dayDelivers = true ∧
      (sweepRow tmin env b).1.reminded_day = 1) ∧
    ((sweepRow tmin env b).2.1 = false →
      (sweepRow tmin env b).1.reminded_day = b.reminded_day) ∧
    ((sweepRow tmin env b).2.2 = true →
      b.reminded_hour = 0 ∧ env.hourDelivers = true ∧
      (sweepRow tmin env b).1.reminded_hour = 1) ∧
    ((sweepRow tmin env b).2.2 = false →
      (sweepRow tmin env b).1.reminded_hour = b.reminded_hour) := by
  unfold sweepRow
  by_cases h1 : b.status ≠ "active"
  · rw [if_pos h1]
    simp
  rw [if_neg h1]
  by_cases h2 : b.user_id = 0
  · rw [if_pos h2]
    simp [h2]
  rw [if_neg h2]
  cases htm : tmin b.d b.t with
  | none => simp
  | some appt =>
    dsimp only
    by_cases h3 : appt - env.nowMin < -5
    · rw [if_pos h3]
      simp
    rw [if_neg h3]
    dsimp only
    refine ⟨⟨?_, ?_, ?_, ?_⟩, ?_, ?_, ?_, ?_⟩
    · exact ((hourPass_keys env _ _).1).trans (dayPass_keys env _ _).1
    · exact ((hourPass_keys env _ _).2.1).trans (dayPass_keys env _ _).2.1
    · exact ((hourPass_keys env _ _).2.2.1).trans (dayPass_keys env _ _).2.2.1
    · exact ((hourPass_keys env _ _).2.2.2.1).trans (dayPass_keys env _ _).2.2.2.1
    · intro hsd
      obtain ⟨hb0, hdel, hflag⟩ := dayPass_true env _ _ hsd
      exact ⟨hb0, hdel, ((hourPass_keys env _ _).2.2.2.2).trans hflag⟩
    · intro hsd
      have hflag := dayPass_false env _ _ hsd
      exact ((hourPass_keys env _ _).2.2.2.2).trans hflag
    · intro hsh
      obtain ⟨hb0, hdel, hflag⟩ := hourPass_true env _ _ hsh
      exact ⟨((dayPass_keys env _ _).2.2.2.2).symm.trans hb0, hdel, hflag⟩
    · intro hsh
      have hflag := hourPass_false env _ _ hsh
      exact hflag.trans (dayPass_keys env _ _).2.2.2.2

/- ================== claim theorems ================== -/

/-- C5: over any sequence of reminder sweeps observing one bookings row, at
most one day reminder and at most one hour reminder is ever delivered; a
threshold whose flag is already set never delivers again; a flag ends up set
exactly when a delivery of that threshold succeeded (so a failed delivery
leaves the flag unset and the next in-window sweep retries, and the flag is
set only in a sweep whose delivery succeeded); and a delivered reminder
requires some sweep whose delivery attempt succeeded. -/
theorem c5_reminder_once (tmin : String → String → Option Int) (b : Booking)
    (envs : List SweepEnv) :
    (runSweeps tmin b envs).2.1 ≤ 1 ∧
    (runSweeps tmin b envs).2.2 ≤ 1 ∧
    (b.reminded_day ≠ 0 → (runSweeps tmin b envs).2.1 = 0) ∧
    (b.reminded_hour ≠ 0 → (runSweeps tmin b envs).2.2 = 0) ∧
    (runSweeps tmin b envs).1.reminded_day =
      (if (runSweeps tmin b envs).2.1 = 0 then b.reminded_day else 1) ∧
    (runSweeps tmin b envs).1.reminded_hour =
      (if (runSweeps tmin b envs).2.2 = 0 then b.reminded_hour else 1) ∧
    ((runSweeps tmin b envs).2.1 = 1 → ∃ env ∈ envs, env.dayDelivers = true) ∧
    ((runSweeps tmin b envs).2.2 = 1 → ∃ env ∈ envs, env.hourDelivers = true) := by
  induction envs generalizing b with
  | nil => simp [runSweeps]
  | cons env rest ih =>
    obtain ⟨hkeys, hdt, hdf, hht, hhf⟩ := sweepRow_spec tmin env b
    have hrw : runSweeps tmin b (env :: rest) =
        ((runSweeps tmin (sweepRow tmin env b).1 rest).1,
          (if (sweepRow tmin env b).2.1 then 1 else 0) +
            (runSweeps tmin (sweepRow tmin env b).1 rest).2.1,
          (if (sweepRow tmin env b).2.2 then 1 else 0) +
            (runSweeps tmin (sweepRow tmin env b).1 rest).2.2) := rfl
    obtain ⟨ih1, ih2, ih3, ih4, ih5, ih6, ih7, ih8⟩ := ih (sweepRow tmin env b).1
    rw [hrw]
    cases hsd : (sweepRow tmin env b).2.1 <;> cases hsh : (sweepRow tmin env b).2.2
    · -- nothing delivered this sweep
      have hfd := hdf hsd
      have hfh := hhf hsh
      refine ⟨by simpa using ih1, by simpa using ih2, ?_, ?_, ?_, ?_, ?_, ?_⟩
      · intro h0
        simpa using ih3 (by rw [hfd]; exact h0)
      · intro h0
        simpa using ih4 (by rw [hfh]; exact h0)
      · simpa [hfd] using ih5
      · simpa [hfh] using ih6
      · intro h0
        obtain ⟨e2, he2, hdel⟩ := ih7 (by simpa using h0)
        exact ⟨e2, List.mem_cons_of_mem _ he2, hdel⟩
      · intro h0
        obtain ⟨e2, he2, hdel⟩ := ih8 (by simpa using h0)
        exact ⟨e2, List.mem_cons_of_mem _ he2, hdel⟩
    · -- hour delivered this sweep
      have hfd := hdf hsd
      obtain ⟨hb0, hdel, hflag⟩ := hht hsh
      have hrest0 : (runSweeps tmin (sweepRow tmin env b).1 rest).2.2 = 0 := by
        apply ih4
        rw [hflag]
        omega
      refine ⟨by simpa using ih1, by simp [hrest0], ?_, ?_, ?_, ?_, ?_, ?_⟩
      · intro h0
        simpa using ih3 (by rw [hfd]; exact h0)
      · intro h0
        rw [hb0] at h0
        exact absurd rfl h0
      · simpa [hfd] using ih5
      · have := ih6
        rw [hrest0] at this
        simp only [if_pos rfl] at this
        rw [hflag] at this
        simp [hrest0, this]
      · intro h0
        obtain ⟨e2, he2, hdel2⟩ := ih7 (by simpa using h0)
        exact ⟨e2, List.mem_cons_of_mem _ he2, hdel2⟩
      · intro h0
        exact ⟨env, List.mem_cons_self _ _, hdel⟩
    · -- day delivered this sweep
      have hfh := hhf hsh
      obtain ⟨hb0, hdel, hflag⟩ := hdt hsd
      have hrest0 : (runSweeps tmin (sweepRow tmin env b).1 rest).2.1 = 0 := by
        apply ih3
        rw [hflag]
        omega
      refine ⟨by simp [hrest0], by simpa using ih2, ?_, ?_, ?_, ?_, ?_, ?_⟩
      · intro h0
        rw [hb0] at h0
        exact absurd rfl h0
      · intro h0
        simpa using ih4 (by rw [hfh]; exact h0)
      · have := ih5
        rw [hrest0] at this
        simp only [if_pos rfl] at this
        rw [hflag] at this
        simp [hrest0, this]
      · simpa [hfh] using ih6
      · intro h0
        exact ⟨env, List.mem_cons_self _ _, hdel⟩
      · intro h0
        obtain ⟨e2, he2, hdel2⟩ := ih8 (by simpa using h0)
        exact ⟨e2, List.mem_cons_of_mem _ he2, hdel2⟩
    · -- both delivered this sweep
      obtain ⟨hbd0, hdeld, hflagd⟩ := hdt hsd
      obtain ⟨hbh0, hdelh, hflagh⟩ := hht hsh
      have hrestd : (runSweeps tmin (sweepRow tmin env b).1 rest).2.1 = 0 := by
        apply ih3
        rw [hflagd]
        omega
      have hresth : (runSweeps tmin (sweepRow tmin env b).1 rest).2.2 = 0 := by
        apply ih4
        rw [hflagh]
        omega
      refine ⟨by simp [hrestd], by simp [hresth], ?_, ?_, ?_, ?_, ?_, ?_⟩
      · intro h0
        rw [hbd0] at h0
        exact absurd rfl h0
      · intro h0
        rw [hbh0] at h0
        exact absurd rfl h0
      · have := ih5
        rw [hrestd] at this
        simp only [if_pos rfl] at this
        rw [hflagd] at this
        simp [hrestd, this]
      · have := ih6
        rw [hresth] at this
        simp only [if_pos rfl] at this
        rw [hflagh] at this
        simp [hresth, this]
      · intro h0
        exact ⟨env, List.mem_cons_self _ _, hdeld⟩
      · intro h0
        exact ⟨env, List.mem_cons_self _ _, hdelh⟩

/-- C5 witness: the appointment bk1 (flags unfired) observed by the three
in-window sweeps envs0 — delivery fails once then succeeds — gets exactly
one day reminder, the bound instantiating c5_reminder_once. -/
theorem c5_reminder_once_witness :
    bk1.reminded_day = 0 ∧
    (runSweeps tmin0 bk1 envs0).2.1 = 1 ∧
    (runSweeps tmin0 bk1 envs0).2.1 ≤ 1 ∧
    (runSweeps tmin0 bk1 envs0).1.reminded_day = 1 :=
  ⟨by decide, by decide, (c5_reminder_once tmin0 bk1 envs0).1, by decide⟩

/-- C1: the failing schedule — two book_slot calls for the same open slot,
each split (as the asyncio event loop permits, every statement being awaited
on its own aiosqlite connection) into its SELECT check step and its
UPDATE-INSERT-COMMIT write step; when both checks run before either write,
BOTH calls return True and TWO active appointments reference the slot,
against the specified exactly-one-winner atomicity. -/
theorem c1_book_race :
    (runTwo dbOpen { req := reqA, phase := BookPhase.toCheck }
        { req := reqB, phase := BookPhase.toCheck } [true, false, true, false]).2.1.phase
      = BookPhase.finished true ∧
    (runTwo dbOpen { req := reqA, phase := BookPhase.toCheck }
        { req := reqB, phase := BookPhase.toCheck } [true, false, true, false]).2.2.phase
      = BookPhase.finished true ∧
    activeCount (runTwo dbOpen { req := reqA, phase := BookPhase.toCheck }
        { req := reqB, phase := BookPhase.toCheck } [true, false, true, false]).1.bookings
        dA tA = 2 ∧
    slotsLookup (runTwo dbOpen { req := reqA, phase := BookPhase.toCheck }
        { req := reqB, phase := BookPhase.toCheck } [true, false, true, false]).1.slots
        dA tA = some { d := dA, t := tA, is_open := 0 } := by
  decide

/-- C2 counterexample: dbBooked satisfies the full invariant (and
well-formedness), yet delete_bookings_all leaves its slot closed with no
active appointment, violating the claimed is_open biconditional. -/
theorem c2_delete_bookings_counterexample :
    DbInv dbBooked ∧ DbWF dbBooked ∧
    ¬ slotInvariant (delete_bookings_all dbBooked) := by
  decide

/-- C2 (amended): book_slot, cancel_booking, move_booking, add_slot,
bulk_add_default_slots and delete_everything preserve the reservation
invariant (is_open = 1 iff no active appointment on the key, at most one
active appointment per key, every active appointment backed by a slot row)
on any well-formed database; delete_bookings_all and delete_slots_all are
excluded, the counterexample showing the former breaks it. -/
theorem c2_invariant_preservation (db : Db) (hw : DbWF db) (hi : DbInv db) :
    (∀ (uid : Int) (un cn ph sv : String) (et : Option String) (d t ca : String),
      DbInv (book_slot db uid un cn ph sv et d t ca).1) ∧
    (∀ bid, DbInv (cancel_booking db bid).1) ∧
    (∀ bid nd nt, DbInv (move_booking db bid nd nt).1) ∧
    (∀ d t, DbInv (add_slot db d t).1) ∧
    (∀ keys, DbInv (bulk_add_default_slots db keys).1) ∧
    DbInv (delete_everything db) :=
  ⟨fun uid un cn ph sv et d t ca => (book_slot_preserves db uid un cn ph sv et d t ca hw hi).1,
   fun bid => (cancel_booking_preserves db bid hw hi).1,
   fun bid nd nt => (move_booking_preserves db bid nd nt hw hi).1,
   fun d t => (add_slot_preserves db d t hw hi).1,
   fun keys => (bulk_add_preserves keys db hw hi).1,
   (delete_everything_preserves db).1⟩

/-- C2 witness: instantiating the preservation theorem on the concrete
invariant state dbBooked, for a booking of the open slot key and for a
cancel of appointment 1. -/
theorem c2_invariant_witness :
    DbWF dbBooked ∧ DbInv dbBooked ∧ DbInv (cancel_booking dbBooked 1).1 :=
  ⟨by decide, by decide,
    (c2_invariant_preservation dbBooked (by decide) (by decide)).2.1 1⟩

/-- C3: move_booking on an Active appointment whose target slot exists and
is open (in a state satisfying the slot invariant, which forces the old and
new keys apart) returns True and, in one state change: the target slot row
is closed, the old slot row (when present) is reopened, every other slot row
is untouched, and the appointment row is repointed to the new key with both
reminder flags reset and every other field kept; when the target slot is
missing or not open, move_booking returns False with the database unchanged
in every field. -/
theorem c3_move_spec (db : Db) (bid : Nat) (nd nt : String) :
    (∀ row s2, slotInvariant db →
      bookingLookup db.bookings bid = some row →
      row.status = "active" →
      slotsLookup db.slots nd nt = some s2 →
      s2.is_open = 1 →
      ((move_booking db bid nd nt).2 = true ∧
        ¬(row.d = nd ∧ row.t = nt) ∧
        slotsLookup (move_booking db bid nd nt).1.slots nd nt =
          some { s2 with is_open := 0 } ∧
        (∀ s0, slotsLookup db.slots row.d row.t = some s0 →
          slotsLookup (move_booking db bid nd nt).1.slots row.d row.t =
            some { s0 with is_open := 1 }) ∧
        (∀ d2 t2, ¬(d2 = row.d ∧ t2 = row.t) → ¬(d2 = nd ∧ t2 = nt) →
          slotsLookup (move_booking db bid nd nt).1.slots d2 t2 =
            slotsLookup db.slots d2 t2) ∧
        bookingLookup (move_booking db bid nd nt).1.bookings bid =
          some { row with d := nd, t := nt, reminded_day := 0, reminded_hour := 0 })) ∧
    ((slotsLookup db.slots nd nt = none ∨
        (∃ s2, slotsLookup db.slots nd nt = some s2 ∧ s2.is_open ≠ 1)) →
      move_booking db bid nd nt = (db, false)) := by
  constructor
  · intro row s2 hinv hb hact hs2 hopen
    have hact2 : ¬row.status ≠ "active" := fun h => h hact
    have hopen2 : ¬s2.is_open ≠ 1 := fun h => h hopen
    obtain ⟨hrowmem, hrowid⟩ := bookingLookup_mem hb
    obtain ⟨hs2mem, hs2d, hs2t⟩ := slotsLookup_mem hs2
    have hnew0 : activeCount db.bookings nd nt = 0 := by
      have h0 := (hinv s2 hs2mem).mp hopen
      rw [hs2d, hs2t] at h0
      exact h0
    have hkeyne : ¬(row.d = nd ∧ row.t = nt) := by
      intro hk
      have hpos := activeCount_pos_of_mem hrowmem hact
      rw [hk.1, hk.2, hnew0] at hpos
      omega
    have hres : move_booking db bid nd nt =
        ({ slots := setSlotOpen (setSlotOpen db.slots row.d row.t 1) nd nt 0,
            bookings := repointById db.bookings bid nd nt,
            next_id := db.next_id }, true) := by
      simp only [move_booking, hb, if_neg hact2, hs2, if_neg hopen2]
    rw [hres]
    refine ⟨rfl, hkeyne, ?_, ?_, ?_, ?_⟩
    · dsimp only
      rw [slotsLookup_setSlotOpen, slotsLookup_setSlotOpen, hs2]
      dsimp only [Option.map]
      have hc1 : ¬(s2.d = row.d ∧ s2.t = row.t) := by
        intro h0
        exact hkeyne ⟨h0.1.symm.trans hs2d, h0.2.symm.trans hs2t⟩
      rw [if_neg hc1]
      have hc2 : s2.d = nd ∧ s2.t = nt := ⟨hs2d, hs2t⟩
      rw [if_pos hc2]
    · intro s0 hs0
      obtain ⟨hs0mem, hs0d, hs0t⟩ := slotsLookup_mem hs0
      dsimp only
      rw [slotsLookup_setSlotOpen, slotsLookup_setSlotOpen, hs0]
      dsimp only [Option.map]
      have hc1 : s0.d = row.d ∧ s0.t = row.t := ⟨hs0d, hs0t⟩
      rw [if_pos hc1]
      have hc2 : ¬(({ s0 with is_open := 1 } : Slot).d = nd ∧
          ({ s0 with is_open := 1 } : Slot).t = nt) := by
        intro h0
        exact hkeyne ⟨hs0d.symm.trans h0.1, hs0t.symm.trans h0.2⟩
      rw [if_neg hc2]
    · intro d2 t2 hn1 hn2
      dsimp only
      rw [slotsLookup_setSlotOpen, slotsLookup_setSlotOpen]
      cases hv : slotsLookup db.slots d2 t2 with
      | none => rfl
      | some sv =>
        obtain ⟨hvm, hvd, hvt⟩ := slotsLookup_mem hv
        dsimp only [Option.map]
        have hc1 : ¬(sv.d = row.d ∧ sv.t = row.t) := by
          intro h0
          exact hn1 ⟨hvd.symm.trans h0.1, hvt.symm.trans h0.2⟩
        rw [if_neg hc1]
        have hc2 : ¬(sv.d = nd ∧ sv.t = nt) := by
          intro h0
          exact hn2 ⟨hvd.symm.trans h0.1, hvt.symm.trans h0.2⟩
        rw [if_neg hc2]
    · dsimp only
      rw [bookingLookup_repointById, hb]
      dsimp only [Option.map]
      rw [if_pos hrowid]
  · intro hfail
    cases hb : bookingLookup db.bookings bid with
    | none => simp only [move_booking, hb]
    | some row =>
      by_cases hact : row.status = "active"
      · have hact2 : ¬row.status ≠ "active" := fun h => h hact
        rcases hfail with hnone | ⟨s2, hs2, hno⟩
        · simp only [move_booking, hb, if_neg hact2, hnone]
        · simp only [move_booking, hb, if_neg hact2, hs2, if_pos hno]
      · have hact3 : row.status ≠ "active" := hact
        simp only [move_booking, hb, if_pos hact3]

/-- C3 witness: moving appointment 1 of dbMove from (dA, tA) to the open
slot (dA, tB) succeeds, closing the target — and moving to a missing slot
fails with no change — both by instantiating c3_move_spec. -/
theorem c3_move_spec_witness :
    slotInvariant dbMove ∧
    bookingLookup dbMove.bookings 1 = some bk1 ∧
    bk1.status = "active" ∧
    slotsLookup dbMove.slots dA tB = some slotB ∧
    slotB.is_open = 1 ∧
    (move_booking dbMove 1 dA tB).2 = true ∧
    move_booking dbMove 1 tB tA = (dbMove, false) :=
  ⟨by decide, by decide, by decide, by decide, by decide,
    ((c3_move_spec dbMove 1 dA tB).1 bk1 slotB (by decide) (by decide) (by decide)
      (by decide) (by decide)).1,
    (c3_move_spec dbMove 1 tB tA).2 (Or.inl (by decide))⟩

/-- C4: cancel_booking on an Active appointment returns Ok with the
appointment key, sets the row status to canceled and reopens the referenced
slot row; and composing cancel_booking with itself equals a single call —
state and result — so the second call on the now-canceled appointment is Ok
with no further change. -/
theorem c4_cancel_idempotent (db : Db) (bid : Nat) :
    (∀ row, bookingLookup db.bookings bid = some row → row.status = "active" →
      ((cancel_booking db bid).2.1 = true ∧
        (cancel_booking db bid).2.2 = (row.d, row.t) ∧
        bookingLookup (cancel_booking db bid).1.bookings bid =
          some { row with status := "canceled" } ∧
        (∀ s0, slotsLookup db.slots row.d row.t = some s0 →
          slotsLookup (cancel_booking db bid).1.slots row.d row.t =
            some { s0 with is_open := 1 }))) ∧
    cancel_booking (cancel_booking db bid).1 bid = cancel_booking db bid := by
  constructor
  · intro row hb hact
    have hnc : ¬row.status = "canceled" := by
      rw [hact]
      decide
    obtain ⟨hrowmem, hrowid⟩ := bookingLookup_mem hb
    have hres : cancel_booking db bid =
        ({ slots := setSlotOpen db.slots row.d row.t 1,
            bookings := cancelById db.bookings bid,
            next_id := db.next_id }, true, row.d, row.t) := by
      simp only [cancel_booking, hb, if_neg hnc]
    rw [hres]
    refine ⟨rfl, rfl, ?_, ?_⟩
    · dsimp only
      rw [bookingLookup_cancelById, hb]
      dsimp only [Option.map]
      rw [if_pos hrowid]
    · intro s0 hs0
      obtain ⟨hs0mem, hs0d, hs0t⟩ := slotsLookup_mem hs0
      dsimp only
      rw [slotsLookup_setSlotOpen, hs0]
      dsimp only [Option.map]
      have hc1 : s0.d = row.d ∧ s0.t = row.t := ⟨hs0d, hs0t⟩
      rw [if_pos hc1]
  · cases hb : bookingLookup db.bookings bid with
    | none =>
      have h1 : cancel_booking db bid = (db, false, sEmpty, sEmpty) := by
        simp only [cancel_booking, hb]
      rw [h1]
      exact h1
    | some row =>
      by_cases hc : row.status = "canceled"
      · have h1 : cancel_booking db bid = (db, true, row.d, row.t) := by
          simp only [cancel_booking, hb, if_pos hc]
        rw [h1]
        exact h1
      · obtain ⟨hrowmem, hrowid⟩ := bookingLookup_mem hb
        have h1 : cancel_booking db bid =
            ({ slots := setSlotOpen db.slots row.d row.t 1,
                bookings := cancelById db.bookings bid,
                next_id := db.next_id }, true, row.d, row.t) := by
          simp only [cancel_booking, hb, if_neg hc]
        rw [h1]
        have hl2 : bookingLookup (cancelById db.bookings bid) bid =
            some { row with status := "canceled" } := by
          rw [bookingLookup_cancelById, hb]
          dsimp only [Option.map]
          rw [if_pos hrowid]
        simp [cancel_booking, hl2]

/-- C4 witness: cancel of the active appointment 1 in dbBooked returns Ok
with its key, and a second cancel is a no-op equal to the first — both by
instantiating c4_cancel_idempotent. -/
theorem c4_cancel_idempotent_witness :
    bookingLookup dbBooked.bookings 1 = some bk1 ∧
    bk1.status = "active" ∧
    (cancel_booking dbBooked 1).2.1 = true ∧
    cancel_booking (cancel_booking dbBooked 1).1 1 = cancel_booking dbBooked 1 :=
  ⟨by decide, by decide,
    ((c4_cancel_idempotent dbBooked 1).1 bk1 (by decide) (by decide)).1,
    (c4_cancel_idempotent dbBooked 1).2⟩

/-- C6 counterexample: at confirmation over dbTaken — slot (dA, tA) just
taken while (dA, tB) is still open on the same date, so the claimed
fall-back-to-date condition does not hold — the handler still moves the
conversation to the day (calendar) state, not the time state, with the
database unchanged. -/
theorem c6_claim_counterexample :
    get_open_times dbTaken dA = [tB] ∧
    u_confirm dbTaken 7 userNameA tsA sessFull ConfirmAction.yes
      = (dbTaken, FsmState.day, sessFull) ∧
    FsmState.day ≠ FsmState.time := by
  decide

/-- C6 (amended): when the confirmation-step Book call fails because the
slot is gone (book_check false), the handler keeps the session data, moves
the conversation to the ChoosingDate state (a fresh calendar), and the
database is unchanged — in particular no duplicate appointment row is
inserted. -/
theorem c6_slot_taken_goes_to_day (db : Db) (caller : Int) (un ca : String)
    (sess : Session)
    (h1 : truthy sess.service = true) (h2 : truthy sess.day = true)
    (h3 : truthy sess.time = true) (h4 : truthy sess.client_name = true)
    (h5 : truthy sess.phone = true)
    (hfail : book_check db (sess.day.getD sEmpty) (sess.time.getD sEmpty) = false) :
    u_confirm db caller un ca sess ConfirmAction.yes = (db, FsmState.day, sess) := by
  simp [u_confirm, book_slot, h1, h2, h3, h4, h5, hfail]

/-- C6 witness: the amended theorem instantiated on dbTaken and the full
session for (dA, tA). -/
theorem c6_slot_taken_witness :
    truthy sessFull.service = true ∧
    book_check dbTaken (sessFull.day.getD sEmpty) (sessFull.time.getD sEmpty) = false ∧
    u_confirm dbTaken 7 userNameA tsA sessFull ConfirmAction.yes
      = (dbTaken, FsmState.day, sessFull) :=
  ⟨by decide, by decide,
    c6_slot_taken_goes_to_day dbTaken 7 userNameA tsA sessFull (by decide) (by decide)
      (by decide) (by decide) (by decide) (by decide)⟩

/-- C7 counterexample: book_slot reports failure as the single boolean
False for both distinct situations — no slot row with the key (dbEmpty) and
a slot row that exists but is closed (dbBooked) — so its result does not
distinguish SlotTaken from SlotNotFound for the caller. -/
theorem c7_claim_counterexample :
    slotsLookup dbEmpty.slots dA tA = none ∧
    slotsLookup dbBooked.slots dA tA = some { d := dA, t := tA, is_open := 0 } ∧
    book_slot dbEmpty 1 userNameA nameA phoneA SERV_LAMI none dA tA tsA
      = (dbEmpty, false) ∧
    book_slot dbBooked 1 userNameA nameA phoneA SERV_LAMI none dA tA tsA
      = (dbBooked, false) := by
  decide

/-- C7 (amended): book_slot returns a plain boolean: False with the database
unchanged both when the slot row is missing and when it exists but is not
open — the two failure cases are indistinguishable — and True exactly when
the slot row exists and is open. -/
theorem c7_book_result_boolean (db : Db) (uid : Int) (un cn ph sv : String)
    (et : Option String) (d t ca : String) :
    (slotsLookup db.slots d t = none →
      book_slot db uid un cn ph sv et d t ca = (db, false)) ∧
    (∀ s, slotsLookup db.slots d t = some s → s.is_open ≠ 1 →
      book_slot db uid un cn ph sv et d t ca = (db, false)) ∧
    ((book_slot db uid un cn ph sv et d t ca).2 = true ↔
      ∃ s, slotsLookup db.slots d t = some s ∧ s.is_open = 1) := by
  refine ⟨?_, ?_, ?_⟩
  · intro hnone
    have hc : book_check db d t = false := by
      unfold book_check
      rw [hnone]
    simp only [book_slot, hc, Bool.false_eq_true, if_false]
  · intro s hs hno
    have hc : book_check db d t = false := by
      unfold book_check
      rw [hs]
      simpa using hno
    simp only [book_slot, hc, Bool.false_eq_true, if_false]
  · by_cases hc : book_check db d t = true
    · simp only [book_slot, hc, if_true]
      simpa using book_check_eq_true.mp hc
    · have hcf : book_check db d t = false := by
        cases h : book_check db d t
        · rfl
        · exact absurd h hc
      simp only [book_slot, hcf, Bool.false_eq_true, if_false]
      constructor
      · intro h0
        exact absurd h0 (by decide)
      · intro h0
        exact absurd (book_check_eq_true.mpr h0) hc

/-- C7 witness: the amended theorem instantiated on the missing-slot state
dbEmpty. -/
theorem c7_book_result_witness :
    slotsLookup dbEmpty.slots dA tA = none ∧
    book_slot dbEmpty 1 userNameA nameA phoneA SERV_LAMI none dA tA tsA
      = (dbEmpty, false) :=
  ⟨by decide,
    (c7_book_result_boolean dbEmpty 1 userNameA nameA phoneA SERV_LAMI none dA tA
      tsA).1 (by decide)⟩

/-- C8 counterexample: a 16-digit input — above the claimed 9-to-15
acceptance band — is accepted by the phone handler, which stores it and
advances to the confirmation stage instead of re-prompting. -/
theorem c8_claim_counterexample :
    digits_count (pyStrip phone16) = 16 ∧
    u_phone sessAtPhone phone16
      = (FsmState.confirm, { sessAtPhone with phone := some phone16 }) ∧
    FsmState.confirm ≠ FsmState.phone := by
  decide

/-- C8 (amended): with the earlier stages collected, the phone handler
re-prompts in place exactly when the stripped input has fewer than 9 digit
characters, and otherwise stores the stripped input and advances — there is
no upper bound on the digit count, and characters other than digits
(including the plus sign) are ignored by the count only. -/
theorem c8_phone_rule (sess : Session) (text : String)
    (h1 : truthy sess.service = true) (h2 : truthy sess.day = true)
    (h3 : truthy sess.time = true) (h4 : truthy sess.client_name = true) :
    (digits_count (pyStrip text) < 9 → u_phone sess text = (FsmState.phone, sess)) ∧
    (9 ≤ digits_count (pyStrip text) →
      u_phone sess text = (FsmState.confirm, { sess with phone := some (pyStrip text) })) := by
  constructor
  · intro hlt
    simp [u_phone, hlt]
  · intro hge
    have hnlt : ¬digits_count (pyStrip text) < 9 := by omega
    simp [u_phone, hnlt, h1, h2, h3, h4]

/-- C8 witness: the amended theorem instantiated on the valid phone phoneA
(12 digits, accepted) at the collected session sessAtPhone. -/
theorem c8_phone_rule_witness :
    truthy sessAtPhone.service = true ∧
    9 ≤ digits_count (pyStrip phoneA) ∧
    u_phone sessAtPhone phoneA
      = (FsmState.confirm, { sessAtPhone with phone := some (pyStrip phoneA) }) :=
  ⟨by decide, by decide,
    (c8_phone_rule sessAtPhone phoneA (by decide) (by decide) (by decide)
      (by decide)).2 (by decide)⟩

/-- C9 counterexample: the three-character two-token input nameAB — at least
2 characters and with separable tokens, so the claim accepts it — is
rejected by the name handler, which re-prompts in the same state. -/
theorem c9_claim_counterexample :
    (pyStrip nameAB).length = 3 ∧
    (pySplit (pyStrip nameAB)).length = 2 ∧
    u_fullname Session.empty nameAB = (FsmState.fullname, Session.empty) ∧
    FsmState.fullname ≠ FsmState.phone := by
  decide

/-- C9 (amended): the name handler re-prompts in place exactly when the
stripped input has fewer than 2 whitespace-separated tokens or fewer than 5
characters; every other input is stored as the client name and advances the
conversation to the phone stage. -/
theorem c9_fullname_rule (sess : Session) (text : String) :
    (((pySplit (pyStrip text)).length < 2 ∨ (pyStrip text).length < 5) →
      u_fullname sess text = (FsmState.fullname, sess)) ∧
    ((2 ≤ (pySplit (pyStrip text)).length ∧ 5 ≤ (pyStrip text).length) →
      u_fullname sess text
        = (FsmState.phone, { sess with client_name := some (pyStrip text) })) := by
  constructor
  · intro hrej
    simp [u_fullname, hrej]
  · intro hok
    have hn : ¬((pySplit (pyStrip text)).length < 2 ∨ (pyStrip text).length < 5) := by
      omega
    simp [u_fullname, hn]

/-- C9 witness: the amended theorem instantiated on the accepted two-word
name nameA. -/
theorem c9_fullname_rule_witness :
    2 ≤ (pySplit (pyStrip nameA)).length ∧
    5 ≤ (pyStrip nameA).length ∧
    u_fullname Session.empty nameA
      = (FsmState.phone, { Session.empty with client_name := some (pyStrip nameA) }) :=
  ⟨by decide, by decide, (c9_fullname_rule Session.empty nameA).2 (by decide)⟩

/-- C10: whenever the booking referenced by a cancel-confirm or move-confirm
callback exists but belongs to a different user than the caller, both
handlers leave the database exactly unchanged and answer with a refusal
(either the not-found-or-inactive alert, when the booking is not active, or
the not-yours alert) — a client can only cancel or move their own booking. -/
theorem c10_ownership_guard (db : Db) (caller : Int) (bid : Nat) (bk : Booking)
    (hb : bookingLookup db.bookings bid = some bk)
    (hne : bk.user_id ≠ caller) :
    ((u_cancel_yes db caller bid).1 = db ∧
      ((u_cancel_yes db caller bid).2 = ClientActionResult.notFoundOrInactive ∨
        (u_cancel_yes db caller bid).2 = ClientActionResult.notYours)) ∧
    (∀ nd nt, (u_move_yes db caller bid nd nt).1 = db ∧
      ((u_move_yes db caller bid nd nt).2 = ClientActionResult.notFoundOrInactive ∨
        (u_move_yes db caller bid nd nt).2 = ClientActionResult.notYours)) := by
  by_cases hact : bk.status = "active"
  · have hact2 : ¬bk.status ≠ "active" := fun h => h hact
    constructor
    · simp only [u_cancel_yes, hb, if_neg hact2, if_pos hne]
      exact ⟨trivial, Or.inr trivial⟩
    · intro nd nt
      simp only [u_move_yes, hb, if_neg hact2, if_pos hne]
      exact ⟨trivial, Or.inr trivial⟩
  · have hact3 : bk.status ≠ "active" := hact
    constructor
    · simp only [u_cancel_yes, hb, if_pos hact3]
      exact ⟨trivial, Or.inl trivial⟩
    · intro nd nt
      simp only [u_move_yes, hb, if_pos hact3]
      exact ⟨trivial, Or.inl trivial⟩

/-- C10 witness: caller 8 attempting to cancel or move booking 1 of dbBooked
(owned by user 7) changes nothing, by instantiating c10_ownership_guard. -/
theorem c10_ownership_guard_witness :
    bookingLookup dbBooked.bookings 1 = some bk1 ∧
    bk1.user_id ≠ 8 ∧
    (u_cancel_yes dbBooked 8 1).1 = dbBooked ∧
    (u_move_yes dbBooked 8 1 dA tB).1 = dbBooked :=
  ⟨by decide, by decide,
    (c10_ownership_guard dbBooked 8 1 bk1 (by decide) (by decide)).1.1,
    ((c10_ownership_guard dbBooked 8 1 bk1 (by decide) (by decide)).2 dA tB).1⟩
